import Mathlib

/-!
Verification of the income/expenses bookkeeping core.

This file is a shallow embedding, in Lean 4, of the summary-aggregation
subsystem of the repository: the time-bucketing utility (`src/lib/dates.ts`),
the ledger write/delete path with its summary-counter maintenance
(`src/lib/firestore/categories.ts` transactions section and
`src/lib/firestore/summaries.ts`), the computed-on-read aggregation and the
payment-method sub-totals (`src/lib/firestore/summaries.ts`, plus the earlier
generation of the same module kept in the repository), the category registry,
and the ingestion webhook (`src/pages/api/webhook/transaction.ts`).

Modelling conventions:
* Instants are `Int` milliseconds since the Unix epoch (the value of a JS
  `Date`).  Money is `Int` cents.  JS `Math.floor` on exact divisions is
  `Int` division (`/` on `Int` is floor division for positive divisors) and
  JS `%` on the nonnegative quantities involved is `Int.emod`.
* The JS host/runtime timezone is modelled as UTC (servers run with TZ=UTC);
  the fixed civil timezone `Europe/Athens` is modelled by the EU
  daylight-saving rule (UTC+2, UTC+3 between 01:00 UTC on the last Sunday of
  March and 01:00 UTC on the last Sunday of October), which is the IANA rule
  for Europe/Athens in the modern era.
* `date-fns-tz` primitives are embedded by their documented behaviour:
  `formatInTimeZone(d, tz, 'yyyy-MM-dd')` renders the civil date of the
  instant in the zone; `toZonedTime(d, tz)` returns a `Date` shifted so that
  its host-local (here UTC) fields show the zone's wall clock.
* The Firestore per-collection stores are association lists
  (document id, data); `WriteBatch` commits are atomic, so a batched
  operation is a pure state transformer.
-/

namespace IncomeExpenses

/-- Milliseconds in a day. -/
def msPerDay : Int := 86400000

/-- Milliseconds in an hour. -/
def msPerHour : Int := 3600000

/-- A civil (proleptic Gregorian) calendar date. -/
structure CivilDate where
  year : Int
  month : Int
  day : Int
deriving DecidableEq

/-- Day count since 1970-01-01 of a civil date (model of `Date.UTC` for
in-range month/day; Howard Hinnant's `days_from_civil`).  `/` on `Int` is
floor division for the positive constant divisors used here. -/
def daysFromCivil (c : CivilDate) : Int :=
  let y : Int := if c.month ≤ 2 then c.year - 1 else c.year
  let era : Int := y / 400
  let yoe : Int := y - era * 400
  let mp : Int := (c.month + 9) % 12
  let doy : Int := (153 * mp + 2) / 5 + c.day - 1
  let doe : Int := yoe * 365 + yoe / 4 - yoe / 100 + doy
  era * 146097 + doe - 719468

/-- Day count since 0000-03-01 of the March 1 of March-based year `y` (the
proleptic-Gregorian leap rule). -/
def marchBase (y : Int) : Int := 365 * y + y / 4 - y / 100 + y / 400

/-- March-based year containing the day count `z2` since 0000-03-01: a
first floor-division guess corrected by at most one step in each direction
(`yearMarch_spec` proves it exact). -/
def yearMarch (z2 : Int) : Int :=
  let y0 : Int := 400 * z2 / 146097
  let y1 : Int := if z2 < marchBase y0 then y0 - 1 else y0
  if marchBase (y1 + 1) ≤ z2 then y1 + 1 else y1

/-- Civil date of a day count since 1970-01-01 (model of the `getUTCFullYear`
/ `getUTCMonth` / `getUTCDate` readings of a JS `Date`, i.e. the inverse of
the proleptic-Gregorian `daysFromCivil`; `daysFromCivil_civilFromDays`
proves the two agree). -/
def civilFromDays (z : Int) : CivilDate :=
  let z2 : Int := z + 719468
  let yM : Int := yearMarch z2
  let doy : Int := z2 - marchBase yM
  let mp : Int := (5 * doy + 2) / 153
  let d : Int := doy - (153 * mp + 2) / 5 + 1
  let m : Int := mp + (if mp < 10 then 3 else -9)
  ⟨yM + (if m ≤ 2 then 1 else 0), m, d⟩

/-- Weekday of a day count, as JS `getUTCDay`: 0 = Sunday … 6 = Saturday. -/
def weekdayOfDays (n : Int) : Int := (n + 4) % 7

/-- JS two-digit-year quirk of the `Date.UTC(y, …)` and `new Date(y, …)`
constructors: a year argument in 0..99 is interpreted as 1900+y. -/
def jsYearAdjust (y : Int) : Int := if 0 ≤ y ∧ y ≤ 99 then y + 1900 else y

/-- Day count of `Date.UTC(y, monthIndex, d)` (month index 0-based, with JS
normalisation of an out-of-range month index and linear day arithmetic, and
the two-digit-year quirk). -/
def jsDateUTCDays (y monthIndex d : Int) : Int :=
  let yy : Int := jsYearAdjust y
  daysFromCivil ⟨yy + monthIndex / 12, monthIndex % 12 + 1, 1⟩ + (d - 1)

/-- Day count (since epoch) of the last Sunday of the given month of a year,
where `lastDay` is that month's last day number. -/
def lastSundayAsDays (y month lastDay : Int) : Int :=
  let n := daysFromCivil ⟨y, month, lastDay⟩
  n - weekdayOfDays n

/-- UTC offset of Europe/Athens at an instant, in ms: UTC+3 between 01:00 UTC
on the last Sunday of March and 01:00 UTC on the last Sunday of October (the
EU rule, as in the IANA database for the modern era), UTC+2 otherwise. -/
def athensOffsetMs (t : Int) : Int :=
  let y := (civilFromDays (t / msPerDay)).year
  let dstStart := lastSundayAsDays y 3 31 * msPerDay + msPerHour
  let dstEnd := lastSundayAsDays y 10 31 * msPerDay + msPerHour
  if dstStart ≤ t ∧ t < dstEnd then 3 * msPerHour else 2 * msPerHour

/-- Wall-clock milliseconds in Europe/Athens at an instant. -/
def athensWallMs (t : Int) : Int := t + athensOffsetMs t

/-- Civil date of an instant in Europe/Athens (the date that
`formatInTimeZone(t, 'Europe/Athens', …)` renders). -/
def athensCivil (t : Int) : CivilDate := civilFromDays (athensWallMs t / msPerDay)

/-- Decimal digit character. -/
def digitChar (n : Nat) : Char := Char.ofNat (48 + n)

/-- Decimal digits of a `Nat`, most significant first (fuel-structured so the
kernel can evaluate it; `natDigits` supplies sufficient fuel). -/
def natDigitsAux : Nat → Nat → List Char
  | 0, _ => []
  | fuel + 1, n =>
    if n < 10 then [digitChar n]
    else natDigitsAux fuel (n / 10) ++ [digitChar (n % 10)]

/-- Decimal digits of a `Nat`, most significant first (model of JS
`Number.prototype.toString`). -/
def natDigits (n : Nat) : List Char := natDigitsAux (n + 1) n

/-- Decimal rendering of an `Int` as a character list. -/
def intDigits (i : Int) : List Char :=
  if i < 0 then '-' :: natDigits i.natAbs else natDigits i.natAbs

/-- Left-pad with '0' to the given width (model of `padStart(k, '0')` and of
the padding the `yyyy`/`MM`/`dd` format tokens perform). -/
def padZero (k : Nat) (cs : List Char) : List Char :=
  List.replicate (k - cs.length) '0' ++ cs

/-- The `yyyy-MM-dd` rendering of a civil date. -/
def formatDateKey (c : CivilDate) : String :=
  String.mk (padZero 4 (intDigits c.year) ++ '-' ::
    (padZero 2 (intDigits c.month) ++ '-' :: padZero 2 (intDigits c.day)))

/-- The `yyyy-MM` rendering of a civil date. -/
def formatMonthKey (c : CivilDate) : String :=
  String.mk (padZero 4 (intDigits c.year) ++ '-' :: padZero 2 (intDigits c.month))

/-- `toDateKey` of `src/lib/dates.ts`: the `yyyy-MM-dd` key of the instant's
civil date in Europe/Athens. -/
def toDateKey (t : Int) : String := formatDateKey (athensCivil t)

/-- `toMonthKey` of `src/lib/dates.ts`. -/
def toMonthKey (t : Int) : String := formatMonthKey (athensCivil t)

/-- `getISOWeek` of `src/lib/dates.ts`, acting on the civil-date fields the
source reads off the zoned date.  Faithful to the source: the week number is
computed by shifting to the Thursday of the civil week and counting weeks
from January 1 of that Thursday's year (`Math.ceil(((d - yearStart)/86400000
+ 1)/7)`, embedded as `(diff + 7) / 7` which equals the ceiling for integer
inputs). -/
def getISOWeek (c : CivilDate) : Int :=
  let n : Int := jsDateUTCDays c.year (c.month - 1) c.day
  let w : Int := weekdayOfDays n
  let dayNum : Int := if w = 0 then 7 else w
  let n2 : Int := n + 4 - dayNum
  let yearStart : Int := jsDateUTCDays (civilFromDays n2).year 0 1
  (n2 - yearStart + 7) / 7

/-- `toISOWeekKey` of `src/lib/dates.ts`: the template literal
`${year}-W${week.toString().padStart(2, '0')}` where `year` is the zoned
date's calendar year and `week` is `getISOWeek` of the zoned date. -/
def toISOWeekKey (t : Int) : String :=
  let c := athensCivil t
  String.mk (intDigits c.year ++ '-' :: 'W' :: padZero 2 (intDigits (getISOWeek c)))

/-- Numeric value of a decimal digit string (the digit-string case of JS
`Number(...)`). -/
def digitsVal (cs : List Char) : Nat :=
  cs.foldl (fun a c => a * 10 + (c.toNat - 48)) 0

/-- Whether a character is a decimal digit. -/
def isDigitChar (c : Char) : Bool := 48 ≤ c.toNat && c.toNat ≤ 57

/-- Model of JS `Number(str)` on a date-key component: a nonempty all-digit
string has its decimal value, anything else is NaN (`none`).  (JS maps the
empty string to 0; keys produced by `toDateKey` never have empty components,
so the difference is immaterial here.) -/
def jsNumberOfPart (cs : List Char) : Option Int :=
  if cs ≠ [] ∧ cs.all isDigitChar then some (digitsVal cs) else none

/-- Day count of `new Date(y, monthIndex, d)` under a UTC host clock: JS
month-index normalisation, linear day arithmetic and the two-digit-year
quirk.  The instant is this day count times `msPerDay`. -/
def jsMakeDateDays (y monthIndex d : Int) : Int := jsDateUTCDays y monthIndex d

/-- `parseDateKey` of `src/lib/dates.ts`:
`const [year, month, day] = dateKey.split('-').map(Number);
 return toZonedTime(new Date(year, month - 1, day), TIMEZONE);`
Under a UTC host clock `new Date(y, m-1, d)` is the UTC midnight of the
(normalised) civil date, and `toZonedTime` shifts an instant by the zone
offset, so the result is that midnight plus the Athens offset at it.
`none` models an Invalid Date (a NaN component). -/
def parseDateKey (s : String) : Option Int :=
  match (s.toList.splitOn '-').map jsNumberOfPart with
  | some y :: some m :: some d :: _ =>
    let base := jsMakeDateDays y (m - 1) d * msPerDay
    some (base + athensOffsetMs base)
  | _ => none

/-- A transaction type, the `'income' | 'expense'` union of `types.ts`. -/
inductive TransactionType where
  | income
  | expense
deriving DecidableEq

/-- A stored transaction document of the current generation (`Transaction` in
`types.ts`: period keys are computed on the fly from `ts`, not stored). -/
structure TxRecord where
  ts : Int
  tty : TransactionType
  amountCents : Int
  categoryId : String
  note : String
  clickupId : Option String
  companyName : Option String
  createdBy : String
  createdAt : Int
deriving DecidableEq

/-- A category type, the `'income' | 'expense' | 'both'` union on
`Category.type`. -/
inductive CategoryType where
  | income
  | expense
  | both
deriving DecidableEq

/-- A category document (`Category` in `types.ts`); `ctype` models the
optional `type` field, `none` being a legacy/untyped category.  The id is
the document key in the store, not repeated in the data. -/
structure Category where
  name : String
  active : Bool
  ctype : Option CategoryType
deriving DecidableEq

/-- A period-summary document (`DailySummary`/`WeeklySummary`/
`MonthlySummary` in `types.ts`; the period-key field stored inside the
document duplicates the document id and is never read back, so it is not
repeated here). -/
structure SummaryDoc where
  incomeCents : Int
  expenseCents : Int
  netCents : Int
  countIncome : Int
  countExpense : Int
  updatedAt : Int
deriving DecidableEq

/-- An audit-log entry (only the fields the ledger writes). -/
structure AuditEntry where
  action : String
  entityType : String
  entityId : String
  amountCents : Int
  categoryId : String
  createdBy : String
  createdAt : Int
deriving DecidableEq

/-- A Firestore collection, as an association list of (document id, data);
lookups take the first binding. -/
def findDoc {α : Type} (coll : List (String × α)) (k : String) : Option α :=
  (coll.find? (fun p => p.1 == k)).map (fun p => p.2)

/-- `batch.set` / document creation: bind `k` to `v` (shadowing any previous
binding). -/
def setDoc {α : Type} (coll : List (String × α)) (k : String) (v : α) :
    List (String × α) :=
  (k, v) :: coll.filter (fun p => p.1 != k)

/-- `batch.delete`: remove the binding for `k`. -/
def deleteDoc {α : Type} (coll : List (String × α)) (k : String) :
    List (String × α) :=
  coll.filter (fun p => p.1 != k)

/-- An ingestion-webhook request body (`body` in
`src/pages/api/webhook/transaction.ts`).  `none` models an absent
(`undefined`) field; `amount` is a JS number, modelled as a rational. -/
structure WebhookPayload where
  date : Option String
  ptype : Option String
  amount : Option Rat
  categoryId : Option String
  createdBy : Option String
  note : Option String
  clickupId : Option String
  companyName : Option String
deriving DecidableEq

/-- The document-store state the aggregation core touches. -/
structure LedgerState where
  transactions : List (String × TxRecord)
  categories : List (String × Category)
  statsDaily : List (String × SummaryDoc)
  statsWeekly : List (String × SummaryDoc)
  statsMonthly : List (String × SummaryDoc)
  auditLog : List AuditEntry
  webhookErrors : List (WebhookPayload × String)
deriving DecidableEq

/-- The `'increment' | 'decrement'` operation of `UpdateSummaryParams`. -/
inductive SummaryOp where
  | increment
  | decrement
deriving DecidableEq

/-- One collection's worth of `updateSummaries` (`summaries.ts` lines
160–195, repeated verbatim for the weekly and monthly collections): read the
document for the key; if it exists, shift the total and count matching the
transaction type by the (signed) delta and recompute `netCents` from the
stored income/expense totals (reading a missing numeric field as 0, the
`|| 0`); otherwise create the document seeded from this one transaction. -/
def applySummaryUpdate (coll : List (String × SummaryDoc)) (key : String)
    (tty : TransactionType) (amountCents : Int) (op : SummaryOp) (now : Int) :
    List (String × SummaryDoc) :=
  let delta : Int := match op with | .increment => amountCents | .decrement => -amountCents
  let countDelta : Int := match op with | .increment => 1 | .decrement => -1
  match findDoc coll key with
  | some data =>
    let newIncomeCents := if tty = .income then data.incomeCents + delta else data.incomeCents
    let newExpenseCents := if tty = .expense then data.expenseCents + delta else data.expenseCents
    setDoc coll key
      { incomeCents := newIncomeCents
        expenseCents := newExpenseCents
        netCents := newIncomeCents - newExpenseCents
        countIncome := if tty = .income then data.countIncome + countDelta else data.countIncome
        countExpense := if tty = .expense then data.countExpense + countDelta else data.countExpense
        updatedAt := now }
  | none =>
    setDoc coll key
      { incomeCents := if tty = .income then amountCents else 0
        expenseCents := if tty = .expense then amountCents else 0
        netCents := if tty = .income then amountCents else -amountCents
        countIncome := if tty = .income then 1 else 0
        countExpense := if tty = .expense then 1 else 0
        updatedAt := now }

/-- `updateSummaries` of `summaries.ts`: apply the adjustment to the daily,
weekly and monthly summary documents; the writes are staged on the
`WriteBatch` of the calling ledger operation and commit atomically with it. -/
def updateSummaries (s : LedgerState) (dateKey weekKey monthKey : String)
    (tty : TransactionType) (amountCents : Int) (op : SummaryOp) (now : Int) :
    LedgerState :=
  { s with
    statsDaily := applySummaryUpdate s.statsDaily dateKey tty amountCents op now
    statsWeekly := applySummaryUpdate s.statsWeekly weekKey tty amountCents op now
    statsMonthly := applySummaryUpdate s.statsMonthly monthKey tty amountCents op now }

/-- `createTransaction` of `src/lib/firestore/categories.ts` (transactions
section): derive the three period keys from `data.ts`, stage the new record
and the three summary increments on one batch (committed atomically), then
append the audit entry (best-effort, after the commit).  `newId` stands for
the server-generated document id and `now` for the server clock. -/
def createTransaction (s : LedgerState) (data : TxRecord) (newId : String)
    (now : Int) : LedgerState :=
  let dateKey := toDateKey data.ts
  let weekKey := toISOWeekKey data.ts
  let monthKey := toMonthKey data.ts
  let record : TxRecord :=
    { ts := data.ts
      tty := data.tty
      amountCents := data.amountCents
      categoryId := data.categoryId
      note := data.note
      clickupId := data.clickupId
      companyName := data.companyName
      createdBy := data.createdBy
      createdAt := now }
  let s1 := { s with transactions := setDoc s.transactions newId record }
  let s2 := updateSummaries s1 dateKey weekKey monthKey data.tty data.amountCents .increment now
  { s2 with
    auditLog := s2.auditLog ++
      [{ action := "transaction.create", entityType := "transaction",
         entityId := newId, amountCents := data.amountCents,
         categoryId := data.categoryId, createdBy := data.createdBy,
         createdAt := now }] }

/-- `deleteTransaction` of `src/lib/firestore/categories.ts`: `NotFound` if
the record does not exist; otherwise recompute the period keys from the
stored `ts`, and atomically (one batch) delete the record and decrement the
three summaries; the audit entry follows the commit when an actor is given.
`Except.error` models the thrown error, leaving the store untouched. -/
def deleteTransaction (s : LedgerState) (transactionId : String)
    (actorId : Option String) (now : Int) : Except String LedgerState :=
  match findDoc s.transactions transactionId with
  | none => .error "Transaction not found"
  | some data =>
    let dateKey := toDateKey data.ts
    let weekKey := toISOWeekKey data.ts
    let monthKey := toMonthKey data.ts
    let s1 := { s with transactions := deleteDoc s.transactions transactionId }
    let s2 := updateSummaries s1 dateKey weekKey monthKey data.tty data.amountCents .decrement now
    .ok (match actorId with
      | none => s2
      | some actor =>
        { s2 with
          auditLog := s2.auditLog ++
            [{ action := "transaction.delete", entityType := "transaction",
               entityId := transactionId, amountCents := data.amountCents,
               categoryId := data.categoryId, createdBy := actor,
               createdAt := now }] })

/-- A transaction row as read back for aggregation (`TransactionRow` in
`summaries.ts`): `categoryId` is optional there. -/
structure TxRow where
  ts : Int
  tty : TransactionType
  amountCents : Int
  categoryId : Option String
deriving DecidableEq

/-- JS strict equality `a === b` between a possibly-`undefined` category id
and a possibly-`null` sentinel id: true exactly when both are strings and
equal (`undefined === null` is false). -/
def strictEqIds (a b : Option String) : Bool :=
  match a, b with
  | some x, some y => x == y
  | _, _ => false

/-- The result record of `computeIncomeExpenseCashOnline`. -/
structure ComputedPeriodSummary where
  incomeCents : Int
  expenseCents : Int
  netCents : Int
  cashCents : Int
  onlineCents : Int
deriving DecidableEq

/-- The `cashCents`/`onlineCents` pair (`PaymentTotals` in `types.ts`). -/
structure PaymentTotals where
  cashCents : Int
  onlineCents : Int
deriving DecidableEq

/-- `computeIncomeExpenseCashOnline` of `summaries.ts` (lines 52–88): a fold
over the rows skipping every row whose category is neither the Cash id nor
the Online Payment id; an income row adds to `incomeCents` and to the
matching payment sub-total, an expense row adds to `expenseCents` only;
`netCents` is income minus expense.  (`t.amountCents || 0` is the identity
on the `Int` amounts of the model.) -/
def computeIncomeExpenseCashOnline (transactions : List TxRow)
    (cashId onlineId : Option String) : ComputedPeriodSummary :=
  let acc := transactions.foldl
    (fun (acc : Int × Int × Int × Int) t =>
      let cat := t.categoryId
      if !(strictEqIds cat cashId || strictEqIds cat onlineId) then acc
      else
        let amount := t.amountCents
        match t.tty with
        | .income =>
          (acc.1 + amount, acc.2.1,
           acc.2.2.1 + (if strictEqIds cat cashId then amount else 0),
           acc.2.2.2 + (if strictEqIds cat onlineId then amount else 0))
        | .expense => (acc.1, acc.2.1 + amount, acc.2.2.1, acc.2.2.2))
    (0, 0, 0, 0)
  { incomeCents := acc.1
    expenseCents := acc.2.1
    netCents := acc.1 - acc.2.1
    cashCents := acc.2.2.1
    onlineCents := acc.2.2.2 }

/-- `getPaymentTypeIds` of `summaries.ts`: scan the categories named
`"Cash"` or `"Online Payment"` (in store order) and record each one's
document id; with duplicate names the last document wins. -/
def getPaymentTypeIds (cats : List (String × Category)) :
    Option String × Option String :=
  (cats.filter (fun p => p.2.name == "Cash" || p.2.name == "Online Payment")).foldl
    (fun acc p =>
      if p.2.name == "Cash" then (some p.1, acc.2)
      else if p.2.name == "Online Payment" then (acc.1, some p.1)
      else acc)
    (none, none)

/-- `TRANSACTIONS_QUERY_LIMIT` of `summaries.ts`. -/
def TRANSACTIONS_QUERY_LIMIT : Nat := 5000

/-- `getTransactionsInRange` of `summaries.ts`: the query
`where ts >= from, ts <= to, orderBy ts, limit 5000` over the transactions
collection, mapped to aggregation rows.  The order-by is a stable sort on
the timestamp. -/
def getTransactionsInRange (txs : List (String × TxRecord))
    (fromDate toDate : Int) : List TxRow :=
  (((txs.filter (fun p => decide (fromDate ≤ p.2.ts) && decide (p.2.ts ≤ toDate))).mergeSort
      (fun a b => decide (a.2.ts ≤ b.2.ts))).take TRANSACTIONS_QUERY_LIMIT).map
    (fun p =>
      { ts := p.2.ts, tty := p.2.tty, amountCents := p.2.amountCents,
        categoryId := some p.2.categoryId })

/-- `getPaymentTypeTotals` of the current `summaries.ts` (lines 114–127):
resolve the sentinel ids, short-circuit to zero when neither category
exists, otherwise scan the range, keep only cash/online rows and read the
sub-totals off `computeIncomeExpenseCashOnline`. -/
def getPaymentTypeTotals (cats : List (String × Category))
    (txs : List (String × TxRecord)) (fromDate toDate : Int) : PaymentTotals :=
  let ids := getPaymentTypeIds cats
  if ids.1.isNone && ids.2.isNone then { cashCents := 0, onlineCents := 0 }
  else
    let rows := getTransactionsInRange txs fromDate toDate
    let filtered := rows.filter
      (fun t => strictEqIds t.categoryId ids.1 || strictEqIds t.categoryId ids.2)
    let r := computeIncomeExpenseCashOnline filtered ids.1 ids.2
    { cashCents := r.cashCents, onlineCents := r.onlineCents }

/-- `getComputedPeriodSummary` of `summaries.ts` (lines 137–147): resolve
the sentinel ids, scan the range, keep only cash/online rows, and aggregate
them. -/
def getComputedPeriodSummary (cats : List (String × Category))
    (txs : List (String × TxRecord)) (fromDate toDate : Int) :
    ComputedPeriodSummary :=
  let ids := getPaymentTypeIds cats
  let rows := getTransactionsInRange txs fromDate toDate
  let filtered := rows.filter
    (fun t => strictEqIds t.categoryId ids.1 || strictEqIds t.categoryId ids.2)
  computeIncomeExpenseCashOnline filtered ids.1 ids.2

/-- `getPaymentTypeTotals` of the earlier generation of the summaries module
(`src/unnamed/part_001`, lines 35–61): same sentinel-id resolution and
short-circuit, but the range query has no order-by and no limit, and the
loop adds `amountCents` to the matching sub-total for every matching row
regardless of the transaction's type (`if (cashId && data.categoryId ===
cashId) cashCents += data.amountCents || 0`, and likewise for online). -/
def getPaymentTypeTotalsLegacy (cats : List (String × Category))
    (txs : List (String × TxRecord)) (fromDate toDate : Int) : PaymentTotals :=
  let ids := getPaymentTypeIds cats
  if ids.1.isNone && ids.2.isNone then { cashCents := 0, onlineCents := 0 }
  else
    let rows := txs.filter (fun p => decide (fromDate ≤ p.2.ts) && decide (p.2.ts ≤ toDate))
    let acc := rows.foldl
      (fun (acc : Int × Int) p =>
        let c1 := if ids.1.isSome && strictEqIds (some p.2.categoryId) ids.1
          then acc.1 + p.2.amountCents else acc.1
        let c2 := if ids.2.isSome && strictEqIds (some p.2.categoryId) ids.2
          then acc.2 + p.2.amountCents else acc.2
        (c1, c2))
      (0, 0)
    { cashCents := acc.1, onlineCents := acc.2 }

/-- Modelled from the spec: whether a category matches a requested
transaction type (§4.4 — "a category matches if its `type` is `\"both\"`,
equals the requested type, or is absent (legacy/untyped categories always
match)").  The category-type filter itself is not among the source files;
only the optional `type` field declaration on `Category` is. -/
def categoryMatchesType (c : Category) (t : TransactionType) : Bool :=
  match c.ctype with
  | none => true
  | some .both => true
  | some .income => t == .income
  | some .expense => t == .expense

/-- Modelled from the spec: the category listing
`list(activeOnly?, type?) -> Category[]` of §4.4 — filter to active
categories when requested, apply the transaction-type match when a type is
requested, and sort by name.  The source files contain only the untyped
`listCategories`/`listActiveCategories`. -/
def listCategoriesFiltered (cats : List (String × Category)) (activeOnly : Bool)
    (t : Option TransactionType) : List (String × Category) :=
  let base := if activeOnly then cats.filter (fun p => p.2.active) else cats
  let typed := match t with
    | none => base
    | some tt => base.filter (fun p => categoryMatchesType p.2 tt)
  typed.mergeSort (fun a b => decide (a.2.name ≤ b.2.name))

/-- Modelled from the spec: `getOrCreatePaymentTypeCategory` — imported by
the webhook from the category registry but not defined among the source
files; per §4.4 it is the "idempotent lookup-or-create for the two sentinel
categories".  Returns the id of the first category with the given name, or
creates one (with the supplied fresh id) when none exists. -/
def getOrCreatePaymentTypeCategory (cats : List (String × Category))
    (name : String) (freshId : String) : String × List (String × Category) :=
  match cats.find? (fun p => p.2.name == name) with
  | some p => (p.1, cats)
  | none =>
    (freshId, cats ++ [(freshId, { name := name, active := true, ctype := none })])

/-- Whether a year is a Gregorian leap year. -/
def isLeapYear (y : Int) : Bool := (y % 4 == 0 && y % 100 != 0) || y % 400 == 0

/-- Number of days in a civil month. -/
def daysInMonth (y m : Int) : Int :=
  if m == 2 then (if isLeapYear y then 29 else 28)
  else if m == 4 || m == 6 || m == 9 || m == 11 then 30
  else 31

/-- Whether a string matches the webhook's `/^\d{4}-\d{2}-\d{2}$/` check. -/
def keyFormatMatches (s : String) : Bool :=
  match s.toList with
  | [a, b, c, d, '-', e, f, '-', g, h] =>
    [a, b, c, d, e, f, g, h].all isDigitChar
  | _ => false

/-- The instant of `new Date(dateStr + 'T00:00:00')` for a string matching
`YYYY-MM-DD`, under a UTC host clock: the UTC midnight of that calendar
date, or Invalid Date (`none`) when the components are out of range. -/
def parseKeyFormatDate (s : String) : Option Int :=
  match (s.toList.splitOn '-').map jsNumberOfPart with
  | [some y, some m, some d] =>
    if 1 ≤ m ∧ m ≤ 12 ∧ 1 ≤ d ∧ d ≤ daysInMonth y m then
      some (daysFromCivil ⟨y, m, d⟩ * msPerDay)
    else none
  | _ => none

/-- The webhook's date parsing (`transaction.ts` lines 55–84): a string
matching `YYYY-MM-DD` gets `T00:00:00` appended and is parsed as host-local
(here UTC) midnight; `none` models an Invalid Date.  The general
`new Date(isoString)` branch for other shapes is modelled as Invalid Date —
the claims under verification exercise only the date-only format. -/
def jsParseWebhookDate (s : String) : Option Int :=
  if keyFormatMatches s then parseKeyFormatDate s else none

/-- JS `Math.round`: the floor of the argument plus one half, written on the
numerator/denominator so that it evaluates by integer floor division. -/
def jsRound (q : Rat) : Int := (2 * q.num + (q.den : Int)) / (2 * (q.den : Int))

/-- JS truthiness test of an optional string: `undefined` and the empty
string are falsy. -/
def isFalsyStr (o : Option String) : Bool :=
  match o with
  | none => true
  | some s => s == ""

/-- The webhook's HTTP reply, reduced to the fields the handler sets. -/
structure WebhookResponse where
  status : Nat
  success : Bool
  transactionId : Option String
deriving DecidableEq

/-- `logWebhookError` of `transaction.ts`: append the raw payload and the
reason to the `webhook_errors` collection. -/
def logWebhookError (s : LedgerState) (payload : WebhookPayload) (e : String) :
    LedgerState :=
  { s with webhookErrors := s.webhookErrors ++ [(payload, e)] }

/-- The `POST` handler of `src/pages/api/webhook/transaction.ts`: validate
required fields, the type, the date and the amount (converting major units
to cents by `Math.round(parseFloat(amount) * 100)`), resolve the
`"cash"`/`"online"` sentinels through `getOrCreatePaymentTypeCategory`,
verify the final category id exists, and on success run the full ledger
create.  `freshCategoryId`/`freshTransactionId` stand for the
server-generated document ids and `now` for the server clock.  (`isNaN` on
the cents value cannot fire in the rational model of JS numbers.) -/
def webhookPost (s : LedgerState) (p : WebhookPayload)
    (freshCategoryId freshTransactionId : String) (now : Int) :
    WebhookResponse × LedgerState :=
  if isFalsyStr p.date || isFalsyStr p.ptype || p.amount.isNone ||
      isFalsyStr p.categoryId || isFalsyStr p.createdBy then
    (⟨400, false, none⟩, logWebhookError s p
      "Missing required fields. Required: date, type, amount, categoryId, createdBy")
  else if p.ptype != some "income" && p.ptype != some "expense" then
    (⟨400, false, none⟩, logWebhookError s p
      "Invalid type. Must be \"income\" or \"expense\"")
  else
    match jsParseWebhookDate (p.date.getD "") with
    | none =>
      (⟨400, false, none⟩, logWebhookError s p
        "Invalid date format. Use ISO date string or YYYY-MM-DD")
    | some transactionDate =>
      let amountCents := jsRound (p.amount.getD 0 * 100)
      if amountCents ≤ 0 then
        (⟨400, false, none⟩, logWebhookError s p "Amount must be a positive number")
      else
        let resolved :=
          if p.categoryId == some "cash" then
            getOrCreatePaymentTypeCategory s.categories "Cash" freshCategoryId
          else if p.categoryId == some "online" then
            getOrCreatePaymentTypeCategory s.categories "Online Payment" freshCategoryId
          else (p.categoryId.getD "", s.categories)
        let s2 := { s with categories := resolved.2 }
        match findDoc resolved.2 resolved.1 with
        | none =>
          (⟨400, false, none⟩, logWebhookError s2 p
            ("Category ID \"" ++ resolved.1 ++ "\" does not exist"))
        | some _ =>
          let tty := if p.ptype == some "income" then TransactionType.income
            else TransactionType.expense
          let data : TxRecord :=
            { ts := transactionDate
              tty := tty
              amountCents := amountCents
              categoryId := resolved.1
              note := p.note.getD ""
              clickupId := match p.clickupId with
                | some c => if c == "" then none else some c
                | none => none
              companyName := match p.companyName with
                | some c => if c == "" then none else some c
                | none => none
              createdBy := p.createdBy.getD ""
              createdAt := now }
          let s3 := createTransaction s2 data freshTransactionId now
          (⟨200, true, some freshTransactionId⟩, s3)

/-! ### Helper lemmas about the aggregation fold -/

/-- The accumulator step of `computeIncomeExpenseCashOnline`. -/
def cashOnlineStep (cashId onlineId : Option String) (acc : Int × Int × Int × Int)
    (t : TxRow) : Int × Int × Int × Int :=
  let cat := t.categoryId
  if !(strictEqIds cat cashId || strictEqIds cat onlineId) then acc
  else
    let amount := t.amountCents
    match t.tty with
    | .income =>
      (acc.1 + amount, acc.2.1,
       acc.2.2.1 + (if strictEqIds cat cashId then amount else 0),
       acc.2.2.2 + (if strictEqIds cat onlineId then amount else 0))
    | .expense => (acc.1, acc.2.1 + amount, acc.2.2.1, acc.2.2.2)

theorem computeIncomeExpenseCashOnline_eq_fold (rows : List TxRow)
    (cashId onlineId : Option String) :
    computeIncomeExpenseCashOnline rows cashId onlineId =
      (let acc := rows.foldl (cashOnlineStep cashId onlineId) (0, 0, 0, 0)
       { incomeCents := acc.1, expenseCents := acc.2.1, netCents := acc.1 - acc.2.1,
         cashCents := acc.2.2.1, onlineCents := acc.2.2.2 }) := rfl

theorem cashOnlineStep_skip (cashId onlineId : Option String)
    (acc : Int × Int × Int × Int) (t : TxRow)
    (h1 : strictEqIds t.categoryId cashId = false)
    (h2 : strictEqIds t.categoryId onlineId = false) :
    cashOnlineStep cashId onlineId acc t = acc := by
  simp [cashOnlineStep, h1, h2]

/-- Shifting the accumulator shifts the fold's result componentwise. -/
theorem cashOnlineFold_shift (cashId onlineId : Option String) :
    ∀ (rows : List TxRow) (a b c d : Int),
      rows.foldl (cashOnlineStep cashId onlineId) (a, b, c, d) =
        (a + (rows.foldl (cashOnlineStep cashId onlineId) (0, 0, 0, 0)).1,
         b + (rows.foldl (cashOnlineStep cashId onlineId) (0, 0, 0, 0)).2.1,
         c + (rows.foldl (cashOnlineStep cashId onlineId) (0, 0, 0, 0)).2.2.1,
         d + (rows.foldl (cashOnlineStep cashId onlineId) (0, 0, 0, 0)).2.2.2)
  | [], a, b, c, d => by simp
  | t :: rows, a, b, c, d => by
    simp only [List.foldl_cons]
    rw [cashOnlineFold_shift cashId onlineId rows]
    conv_rhs => rw [cashOnlineFold_shift cashId onlineId rows (cashOnlineStep _ _ _ t).1]
    unfold cashOnlineStep
    by_cases h1 : strictEqIds t.categoryId cashId
    · cases t.tty <;> simp [h1] <;> ring_nf <;> simp [add_assoc, add_comm, add_left_comm]
    · by_cases h2 : strictEqIds t.categoryId onlineId
      · cases t.tty <;> simp [h1, h2] <;> ring_nf <;> simp [add_assoc, add_comm, add_left_comm]
      · simp [h1, h2]

theorem cashOnlineFold_filter (cashId onlineId : Option String) :
    ∀ rows : List TxRow,
      (rows.filter (fun t => strictEqIds t.categoryId cashId ||
          strictEqIds t.categoryId onlineId)).foldl
          (cashOnlineStep cashId onlineId) (0, 0, 0, 0) =
        rows.foldl (cashOnlineStep cashId onlineId) (0, 0, 0, 0)
  | [] => rfl
  | t :: rows => by
    by_cases h : (strictEqIds t.categoryId cashId || strictEqIds t.categoryId onlineId : Bool)
    · have hf : (t :: rows).filter (fun t => strictEqIds t.categoryId cashId ||
          strictEqIds t.categoryId onlineId) =
            t :: rows.filter (fun t => strictEqIds t.categoryId cashId ||
              strictEqIds t.categoryId onlineId) := by
        simp [List.filter_cons, h]
      rw [hf, List.foldl_cons, List.foldl_cons,
        cashOnlineFold_shift _ _ rows, cashOnlineFold_shift _ _ (rows.filter _),
        cashOnlineFold_filter cashId onlineId rows]
    · have h1 : strictEqIds t.categoryId cashId = false := by
        revert h; cases strictEqIds t.categoryId cashId <;> simp
      have h2 : strictEqIds t.categoryId onlineId = false := by
        revert h; cases strictEqIds t.categoryId onlineId <;> simp
      have hf : (t :: rows).filter (fun t => strictEqIds t.categoryId cashId ||
          strictEqIds t.categoryId onlineId) =
            rows.filter (fun t => strictEqIds t.categoryId cashId ||
              strictEqIds t.categoryId onlineId) := by
        simp [List.filter_cons, h1, h2]
      rw [hf, List.foldl_cons,
        cashOnlineStep_skip _ _ _ _ h1 h2, cashOnlineFold_filter cashId onlineId rows]

/-- Rows outside the two sentinel categories are skipped by the fold, so
filtering to the sentinel rows first does not change the result. -/
theorem computeIncomeExpenseCashOnline_filter (rows : List TxRow)
    (cashId onlineId : Option String) :
    computeIncomeExpenseCashOnline
        (rows.filter (fun t => strictEqIds t.categoryId cashId ||
          strictEqIds t.categoryId onlineId)) cashId onlineId =
      computeIncomeExpenseCashOnline rows cashId onlineId := by
  simp only [computeIncomeExpenseCashOnline_eq_fold, cashOnlineFold_filter]

/-- Any id `getPaymentTypeIds` returns is the id of a stored category with
the corresponding sentinel name. -/
theorem getPaymentTypeIds_spec (cats : List (String × Category)) :
    (∀ k, (getPaymentTypeIds cats).1 = some k →
      ∃ c, (k, c) ∈ cats ∧ c.name = "Cash") ∧
    (∀ k, (getPaymentTypeIds cats).2 = some k →
      ∃ c, (k, c) ∈ cats ∧ c.name = "Online Payment") := by
  unfold getPaymentTypeIds
  generalize hl : cats.filter _ = l
  have hsub : ∀ p ∈ l, p ∈ cats := by
    intro p hp; rw [← hl] at hp; exact List.mem_of_mem_filter hp
  clear hl
  set inv : Option String × Option String → Prop := fun acc =>
    (∀ k, acc.1 = some k → ∃ c, (k, c) ∈ cats ∧ c.name = "Cash") ∧
    (∀ k, acc.2 = some k → ∃ c, (k, c) ∈ cats ∧ c.name = "Online Payment")
    with hinv
  suffices h : ∀ (l' : List (String × Category)), (∀ p ∈ l', p ∈ cats) →
      ∀ acc, inv acc → inv (l'.foldl (fun acc p =>
        if p.2.name == "Cash" then (some p.1, acc.2)
        else if p.2.name == "Online Payment" then (acc.1, some p.1)
        else acc) acc) by
    exact h l hsub (none, none) (by simp [hinv])
  intro l' hl' acc hacc
  induction l' generalizing acc with
  | nil => exact hacc
  | cons p rest ih =>
    refine ih (fun q hq => hl' q (List.mem_cons_of_mem _ hq)) _ ?_
    have hp : p ∈ cats := hl' p (List.mem_cons_self p rest)
    by_cases hc : p.2.name = "Cash"
    · simp only [hc, beq_self_eq_true, if_true, hinv]
      exact ⟨fun k hk => ⟨p.2, by simpa [← Option.some_inj.mp hk] using hp, hc⟩, hacc.2⟩
    · by_cases ho : p.2.name = "Online Payment"
      · simp only [hc, ho, beq_iff_eq, if_false, if_true, hinv]
        exact ⟨hacc.1, fun k hk => ⟨p.2, by simpa [← Option.some_inj.mp hk] using hp, ho⟩⟩
      · simpa [hc, ho] using hacc

/-! ### Claims C2, C4, C9, C10 -/

/-- C2: in the computed-on-read aggregation, the income/expense/net totals
sum only transactions categorised under the id of a category named "Cash" or
"Online Payment".  First conjunct: prepending a transaction whose category is
(by the store) not named Cash or Online Payment leaves
`computeIncomeExpenseCashOnline` — the aggregation applied to every scan and
to the dashboard chart/table groups — unchanged, so such a transaction
contributes nothing to income, expense or net.  Second conjunct: the
pre-filter inside `getComputedPeriodSummary` is equivalent to aggregating
the whole scan, because the aggregation itself skips every non-sentinel
row. -/
theorem claim_C2 (cats : List (String × Category)) (txs : List (String × TxRecord))
    (fromDate toDate : Int) (t : TxRow) (rows : List TxRow)
    (h : ∀ p ∈ cats, t.categoryId = some p.1 →
      p.2.name ≠ "Cash" ∧ p.2.name ≠ "Online Payment") :
    computeIncomeExpenseCashOnline (t :: rows)
        (getPaymentTypeIds cats).1 (getPaymentTypeIds cats).2 =
      computeIncomeExpenseCashOnline rows
        (getPaymentTypeIds cats).1 (getPaymentTypeIds cats).2 ∧
    getComputedPeriodSummary cats txs fromDate toDate =
      computeIncomeExpenseCashOnline (getTransactionsInRange txs fromDate toDate)
        (getPaymentTypeIds cats).1 (getPaymentTypeIds cats).2 := by
  have h1 : strictEqIds t.categoryId (getPaymentTypeIds cats).1 = false := by
    cases hc : t.categoryId with
    | none => cases (getPaymentTypeIds cats).1 <;> rfl
    | some x =>
      cases hi : (getPaymentTypeIds cats).1 with
      | none => rfl
      | some y =>
        simp only [strictEqIds, beq_eq_false_iff_ne, ne_eq]
        intro hxy
        obtain ⟨c, hmem, hname⟩ := (getPaymentTypeIds_spec cats).1 y hi
        exact (h (y, c) hmem (by rw [hc, hxy])).1 hname
  have h2 : strictEqIds t.categoryId (getPaymentTypeIds cats).2 = false := by
    cases hc : t.categoryId with
    | none => cases (getPaymentTypeIds cats).2 <;> rfl
    | some x =>
      cases hi : (getPaymentTypeIds cats).2 with
      | none => rfl
      | some y =>
        simp only [strictEqIds, beq_eq_false_iff_ne, ne_eq]
        intro hxy
        obtain ⟨c, hmem, hname⟩ := (getPaymentTypeIds_spec cats).2 y hi
        exact (h (y, c) hmem (by rw [hc, hxy])).2 hname
  constructor
  · simp only [computeIncomeExpenseCashOnline_eq_fold, List.foldl_cons,
      cashOnlineStep_skip _ _ _ _ h1 h2]
  · show computeIncomeExpenseCashOnline
        ((getTransactionsInRange txs fromDate toDate).filter
          (fun t => strictEqIds t.categoryId (getPaymentTypeIds cats).1 ||
            strictEqIds t.categoryId (getPaymentTypeIds cats).2))
        (getPaymentTypeIds cats).1 (getPaymentTypeIds cats).2 = _
    exact computeIncomeExpenseCashOnline_filter _ _ _

/-- Witness for C2 at a concrete store: a transaction in the non-sentinel
category `c2` ("Food") contributes nothing. -/
theorem claim_C2_witness :
    (∀ p ∈ ([("c1", { name := "Cash", active := true, ctype := none }),
             ("c2", { name := "Food", active := true, ctype := none })] :
        List (String × Category)),
      (some "c2" : Option String) = some p.1 →
        p.2.name ≠ "Cash" ∧ p.2.name ≠ "Online Payment") ∧
    computeIncomeExpenseCashOnline
        (({ ts := 0, tty := .expense, amountCents := 400, categoryId := some "c2" } : TxRow) ::
          [{ ts := 0, tty := .income, amountCents := 100, categoryId := some "c1" }])
        (getPaymentTypeIds [("c1", { name := "Cash", active := true, ctype := none }),
          ("c2", { name := "Food", active := true, ctype := none })]).1
        (getPaymentTypeIds [("c1", { name := "Cash", active := true, ctype := none }),
          ("c2", { name := "Food", active := true, ctype := none })]).2 =
      computeIncomeExpenseCashOnline
        [{ ts := 0, tty := .income, amountCents := 100, categoryId := some "c1" }]
        (getPaymentTypeIds [("c1", { name := "Cash", active := true, ctype := none }),
          ("c2", { name := "Food", active := true, ctype := none })]).1
        (getPaymentTypeIds [("c1", { name := "Cash", active := true, ctype := none }),
          ("c2", { name := "Food", active := true, ctype := none })]).2 :=
  ⟨by decide,
   (claim_C2 [("c1", { name := "Cash", active := true, ctype := none }),
      ("c2", { name := "Food", active := true, ctype := none })] [] 0 0
      { ts := 0, tty := .expense, amountCents := 400, categoryId := some "c2" }
      [{ ts := 0, tty := .income, amountCents := 100, categoryId := some "c1" }]
      (by decide)).1⟩

/-- C4 counterexample: in the earlier generation's `getPaymentTypeTotals`
(`src/unnamed/part_001`), posting an expense of 500 cents against the "Cash"
category does change `cashCents` (empty store gives 0, the store with that
one expense gives 500), contradicting the claim that an expense posted
against Cash leaves `cashCents` unchanged. -/
theorem claim_C4_counterexample :
    (getPaymentTypeTotalsLegacy
        [("c1", { name := "Cash", active := true, ctype := none })]
        [("t1", { ts := 1704103200000, tty := .expense, amountCents := 500,
                  categoryId := "c1", note := "", clickupId := none,
                  companyName := none, createdBy := "u", createdAt := 0 })]
        0 1704103200000).cashCents = 500 ∧
    (getPaymentTypeTotalsLegacy
        [("c1", { name := "Cash", active := true, ctype := none })] []
        0 1704103200000).cashCents = 0 := by
  constructor <;> rfl

/-- C4 (amended): in the current summaries module the sentinel categories
are income-only payment channels — over the scanned rows that
`getPaymentTypeTotals`/`getComputedPeriodSummary` aggregate, an income row
in the Cash (resp. Online Payment) category raises `cashCents`
(resp. `onlineCents`) by exactly its amount, and an expense row never
changes either sub-total; the earlier generation's `getPaymentTypeTotals`
(`src/unnamed/part_001`) instead counts expense rows too (see the
counterexample). -/
theorem claim_C4 (cashId onlineId : Option String) (t : TxRow) (rows : List TxRow) :
    (t.tty = .income → strictEqIds t.categoryId cashId = true →
      (computeIncomeExpenseCashOnline (t :: rows) cashId onlineId).cashCents =
        (computeIncomeExpenseCashOnline rows cashId onlineId).cashCents + t.amountCents) ∧
    (t.tty = .income → strictEqIds t.categoryId onlineId = true →
      (computeIncomeExpenseCashOnline (t :: rows) cashId onlineId).onlineCents =
        (computeIncomeExpenseCashOnline rows cashId onlineId).onlineCents + t.amountCents) ∧
    (t.tty = .expense →
      (computeIncomeExpenseCashOnline (t :: rows) cashId onlineId).cashCents =
        (computeIncomeExpenseCashOnline rows cashId onlineId).cashCents ∧
      (computeIncomeExpenseCashOnline (t :: rows) cashId onlineId).onlineCents =
        (computeIncomeExpenseCashOnline rows cashId onlineId).onlineCents) := by
  refine ⟨?_, ?_, ?_⟩
  · intro hty hmatch
    simp only [computeIncomeExpenseCashOnline_eq_fold, List.foldl_cons]
    rw [cashOnlineFold_shift]
    simp [cashOnlineStep, hty, hmatch]
    omega
  · intro hty hmatch
    simp only [computeIncomeExpenseCashOnline_eq_fold, List.foldl_cons]
    rw [cashOnlineFold_shift]
    simp [cashOnlineStep, hty, hmatch]
    omega
  · intro hty
    simp only [computeIncomeExpenseCashOnline_eq_fold, List.foldl_cons]
    rw [cashOnlineFold_shift]
    by_cases h1 : strictEqIds t.categoryId cashId <;>
      by_cases h2 : strictEqIds t.categoryId onlineId <;>
        simp [cashOnlineStep, hty, h1, h2]

/-- Witness for C4 at concrete rows: a 500-cent income against Cash raises
`cashCents` from 0 to 500, and a 300-cent expense against Cash leaves both
sub-totals at their previous values. -/
theorem claim_C4_witness :
    ((({ ts := 0, tty := .income, amountCents := 500, categoryId := some "c1" } : TxRow).tty =
        TransactionType.income) ∧
      (computeIncomeExpenseCashOnline
          [{ ts := 0, tty := .income, amountCents := 500, categoryId := some "c1" }]
          (some "c1") (some "c2")).cashCents =
        (computeIncomeExpenseCashOnline [] (some "c1") (some "c2")).cashCents + 500) ∧
    (computeIncomeExpenseCashOnline
        [{ ts := 0, tty := .expense, amountCents := 300, categoryId := some "c1" }]
        (some "c1") (some "c2")).cashCents =
      (computeIncomeExpenseCashOnline [] (some "c1") (some "c2")).cashCents :=
  ⟨⟨rfl,
    (claim_C4 (some "c1") (some "c2")
      { ts := 0, tty := .income, amountCents := 500, categoryId := some "c1" } []).1
      rfl (by decide)⟩,
   ((claim_C4 (some "c1") (some "c2")
      { ts := 0, tty := .expense, amountCents := 300, categoryId := some "c1" } []).2.2
      rfl).1⟩

/-- C9: the category listing filtered by transaction type `income` contains
exactly the stored categories whose `type` is `income`, `both` or absent,
and no category typed `expense`. -/
theorem claim_C9 (cats : List (String × Category)) (p : String × Category) :
    (p ∈ listCategoriesFiltered cats false (some .income) ↔
      p ∈ cats ∧ (p.2.ctype = none ∨ p.2.ctype = some .both ∨
        p.2.ctype = some .income)) ∧
    (p.2.ctype = some .expense →
      p ∉ listCategoriesFiltered cats false (some .income)) := by
  have hmem : p ∈ listCategoriesFiltered cats false (some .income) ↔
      p ∈ cats ∧ categoryMatchesType p.2 .income = true := by
    unfold listCategoriesFiltered
    simp [List.mem_mergeSort, List.mem_filter]
  have htype : ∀ c : Category, categoryMatchesType c .income = true ↔
      (c.ctype = none ∨ c.ctype = some .both ∨ c.ctype = some .income) := by
    rintro ⟨nm, act, _ | ct⟩
    · simp [categoryMatchesType]
    · cases ct <;> simp [categoryMatchesType]
  refine ⟨by rw [hmem, htype], ?_⟩
  intro hexp hin
  rcases ((htype p.2).mp (hmem.mp hin).2) with h | h | h <;> rw [hexp] at h <;> simp at h

/-- Witness for C9: in a concrete registry the untyped category is listed
and the expense-typed one is not. -/
theorem claim_C9_witness :
    (("b", ({ name := "B", active := true, ctype := none } : Category)) ∈
      listCategoriesFiltered
        [("a", { name := "A", active := true, ctype := some .expense }),
         ("b", { name := "B", active := true, ctype := none })] false (some .income)) ∧
    (("a", ({ name := "A", active := true, ctype := some .expense } : Category)) ∉
      listCategoriesFiltered
        [("a", { name := "A", active := true, ctype := some .expense }),
         ("b", { name := "B", active := true, ctype := none })] false (some .income)) :=
  ⟨(claim_C9 [("a", { name := "A", active := true, ctype := some .expense }),
      ("b", { name := "B", active := true, ctype := none })]
      ("b", { name := "B", active := true, ctype := none })).1.mpr (by decide),
   (claim_C9 [("a", { name := "A", active := true, ctype := some .expense }),
      ("b", { name := "B", active := true, ctype := none })]
      ("a", { name := "A", active := true, ctype := some .expense })).2 rfl⟩

/-- C10: every transaction range scan behind the computed summaries reads at
most the 5000 timestamp-earliest transactions of the range: the result has
at most 5000 rows, all within the range; everything the scan keeps has a
timestamp at most that of anything it drops; and when the range holds at
most 5000 transactions nothing is dropped at all. -/
theorem claim_C10 (txs : List (String × TxRecord)) (fromDate toDate : Int) :
    (getTransactionsInRange txs fromDate toDate).length ≤ TRANSACTIONS_QUERY_LIMIT ∧
    (∀ r ∈ getTransactionsInRange txs fromDate toDate,
      fromDate ≤ r.ts ∧ r.ts ≤ toDate) ∧
    (∀ x ∈ (((txs.filter (fun p => decide (fromDate ≤ p.2.ts) &&
          decide (p.2.ts ≤ toDate))).mergeSort
          (fun a b => decide (a.2.ts ≤ b.2.ts))).take TRANSACTIONS_QUERY_LIMIT),
      ∀ y ∈ (((txs.filter (fun p => decide (fromDate ≤ p.2.ts) &&
          decide (p.2.ts ≤ toDate))).mergeSort
          (fun a b => decide (a.2.ts ≤ b.2.ts))).drop TRANSACTIONS_QUERY_LIMIT),
        x.2.ts ≤ y.2.ts) ∧
    ((txs.filter (fun p => decide (fromDate ≤ p.2.ts) &&
        decide (p.2.ts ≤ toDate))).length ≤ TRANSACTIONS_QUERY_LIMIT →
      (getTransactionsInRange txs fromDate toDate).length =
        (txs.filter (fun p => decide (fromDate ≤ p.2.ts) &&
          decide (p.2.ts ≤ toDate))).length) := by
  refine ⟨?_, ?_, ?_, ?_⟩
  · simp [getTransactionsInRange]
  · intro r hr
    simp only [getTransactionsInRange, List.mem_map] at hr
    obtain ⟨p, hp, hpr⟩ := hr
    have hp2 := List.mem_mergeSort.mp (List.mem_of_mem_take hp)
    have := List.of_mem_filter hp2
    simp only [Bool.and_eq_true, decide_eq_true_eq] at this
    rw [← hpr]
    exact this
  · intro x hx y hy
    have hs : List.Sorted (fun a b : String × TxRecord =>
        (decide (a.2.ts ≤ b.2.ts) = true)) ((txs.filter (fun p => decide (fromDate ≤ p.2.ts) &&
          decide (p.2.ts ≤ toDate))).mergeSort (fun a b => decide (a.2.ts ≤ b.2.ts))) := by
      apply List.sorted_mergeSort
      · intro a b c h1 h2
        simp only [decide_eq_true_eq] at *
        omega
      · intro a b
        simp only [decide_eq_true_eq, Bool.or_eq_true]
        omega
    have := hs.rel_of_mem_take_of_mem_drop hx hy
    simpa using this
  · intro hle
    simp [getTransactionsInRange, List.length_take, List.length_mergeSort]
    omega

/-- Witness for C10 at a concrete two-transaction store: the count bound is
met with room to spare and nothing is dropped. -/
theorem claim_C10_witness :
    (([("t1", ⟨10, .income, 5, "c", "", none, none, "u", 0⟩),
       ("t2", ⟨20, .expense, 7, "c", "", none, none, "u", 0⟩)] :
      List (String × TxRecord)).filter (fun p => decide ((0 : Int) ≤ p.2.ts) &&
        decide (p.2.ts ≤ (100 : Int)))).length ≤ TRANSACTIONS_QUERY_LIMIT ∧
    (getTransactionsInRange
        [("t1", ⟨10, .income, 5, "c", "", none, none, "u", 0⟩),
         ("t2", ⟨20, .expense, 7, "c", "", none, none, "u", 0⟩)] 0 100).length =
      (([("t1", ⟨10, .income, 5, "c", "", none, none, "u", 0⟩),
         ("t2", ⟨20, .expense, 7, "c", "", none, none, "u", 0⟩)] :
        List (String × TxRecord)).filter (fun p => decide ((0 : Int) ≤ p.2.ts) &&
          decide (p.2.ts ≤ (100 : Int)))).length :=
  ⟨by decide,
   (claim_C10
      [("t1", ⟨10, .income, 5, "c", "", none, none, "u", 0⟩),
       ("t2", ⟨20, .expense, 7, "c", "", none, none, "u", 0⟩)] 0 100).2.2.2 (by decide)⟩

/-! ### Store lemmas and claims C1, C5 -/

theorem findDoc_setDoc_same {α : Type} (coll : List (String × α)) (k : String) (v : α) :
    findDoc (setDoc coll k v) k = some v := by
  simp [findDoc, setDoc, List.find?]

theorem find?_filter_ne {α : Type} (k k' : String) (h : k' ≠ k) :
    ∀ coll : List (String × α),
      (coll.filter (fun p => p.1 != k)).find? (fun p => p.1 == k') =
        coll.find? (fun p => p.1 == k')
  | [] => rfl
  | q :: rest => by
    by_cases hq : q.1 = k'
    · have h1 : (q.1 == k') = true := by simpa using hq
      have h2 : (q.1 != k) = true := by simp [hq, h]
      simp [List.filter_cons, h2, List.find?, h1]
    · have h1 : (q.1 == k') = false := by simpa using hq
      by_cases h2 : q.1 = k
      · have h3 : (q.1 != k) = false := by simp [h2]
        simp only [List.filter_cons, h3, Bool.false_eq_true, if_false, List.find?, h1]
        exact find?_filter_ne k k' h rest
      · have h3 : (q.1 != k) = true := by simp [h2]
        simp only [List.filter_cons, h3, if_true, List.find?, h1]
        exact find?_filter_ne k k' h rest

theorem findDoc_setDoc_other {α : Type} (coll : List (String × α)) (k k' : String)
    (v : α) (h : k' ≠ k) : findDoc (setDoc coll k v) k' = findDoc coll k' := by
  have h1 : (k == k') = false := by simpa using fun e => h e.symm
  simp only [findDoc, setDoc, List.find?, h1]
  rw [find?_filter_ne k k' h coll]

theorem findDoc_deleteDoc_same {α : Type} (coll : List (String × α)) (k : String) :
    findDoc (deleteDoc coll k) k = none := by
  simp only [findDoc, deleteDoc]
  rw [List.find?_eq_none.mpr]
  · rfl
  · intro p hp
    have := List.of_mem_filter hp
    simpa using this

theorem findDoc_deleteDoc_other {α : Type} (coll : List (String × α)) (k k' : String)
    (h : k' ≠ k) : findDoc (deleteDoc coll k) k' = findDoc coll k' := by
  simp only [findDoc, deleteDoc]
  rw [find?_filter_ne k k' h coll]

/-- The five counter fields of a summary document, a missing document
reading as zeros (the `|| 0` readings of the source). -/
def summaryFields (o : Option SummaryDoc) : Int × Int × Int × Int × Int :=
  match o with
  | none => (0, 0, 0, 0, 0)
  | some d => (d.incomeCents, d.expenseCents, d.netCents, d.countIncome, d.countExpense)

/-- A (possibly missing) summary document whose stored `netCents` agrees
with its stored income and expense totals — the invariant every document
written by `updateSummaries` satisfies. -/
def consistentNet (o : Option SummaryDoc) : Prop :=
  ∀ d, o = some d → d.netCents = d.incomeCents - d.expenseCents

/-- `updateSummaries` only writes net-consistent documents. -/
theorem applySummaryUpdate_consistent (coll : List (String × SummaryDoc))
    (key : String) (tty : TransactionType) (amount : Int) (op : SummaryOp)
    (now : Int) (k : String)
    (h : consistentNet (findDoc coll k)) :
    consistentNet (findDoc (applySummaryUpdate coll key tty amount op now) k) := by
  by_cases hk : k = key
  · subst hk
    unfold applySummaryUpdate
    cases hdoc : findDoc coll k with
    | none => cases tty <;> cases op <;>
        simp [findDoc_setDoc_same, consistentNet]
    | some d => cases tty <;> cases op <;>
        simp [findDoc_setDoc_same, consistentNet]
  · unfold applySummaryUpdate
    cases findDoc coll key <;>
      simpa [findDoc_setDoc_other _ _ _ _ hk] using h

theorem findDoc_applySummaryUpdate_other (coll : List (String × SummaryDoc))
    (key : String) (tty : TransactionType) (amount : Int) (op : SummaryOp)
    (now : Int) (k : String) (h : k ≠ key) :
    findDoc (applySummaryUpdate coll key tty amount op now) k = findDoc coll k := by
  unfold applySummaryUpdate
  cases findDoc coll key <;> simp [findDoc_setDoc_other _ _ _ _ h]

/-- Incrementing and then decrementing one summary collection with the same
key, type and amount restores all five counter fields everywhere, provided
the stored document at that key (if any) was net-consistent. -/
theorem applySummaryUpdate_inc_dec (coll : List (String × SummaryDoc))
    (key : String) (tty : TransactionType) (amount : Int) (now1 now2 : Int)
    (h : consistentNet (findDoc coll key)) (k : String) :
    summaryFields (findDoc (applySummaryUpdate
        (applySummaryUpdate coll key tty amount .increment now1)
        key tty amount .decrement now2) k) =
      summaryFields (findDoc coll k) := by
  by_cases hk : k = key
  · subst hk
    cases hdoc : findDoc coll k with
    | none =>
      conv_lhs => rw [applySummaryUpdate, hdoc]
      cases tty <;>
        simp [applySummaryUpdate, findDoc_setDoc_same, hdoc, summaryFields]
    | some d =>
      have hnet := h d hdoc
      conv_lhs => rw [applySummaryUpdate, hdoc]
      cases tty <;>
        simp [applySummaryUpdate, findDoc_setDoc_same, hdoc, summaryFields] <;>
        omega
  · rw [findDoc_applySummaryUpdate_other _ _ _ _ _ _ _ hk,
      findDoc_applySummaryUpdate_other _ _ _ _ _ _ _ hk]

/-- C1: creating a transaction through the ledger create and then deleting
it through the ledger delete is a net no-op on all three period-summary
collections — at every key, `incomeCents`, `expenseCents`, `netCents`,
`countIncome` and `countExpense` (a missing document reading as zeros, as
the code reads them) return to their pre-create values.  The hypotheses say
the three summary documents the transaction touches (if present) have
`netCents = incomeCents - expenseCents`, the invariant `updateSummaries`
itself maintains (`applySummaryUpdate_consistent`). -/
theorem claim_C1 (s : LedgerState) (data : TxRecord) (newId : String)
    (actor : Option String) (now1 now2 : Int) (k : String)
    (hD : consistentNet (findDoc s.statsDaily (toDateKey data.ts)))
    (hW : consistentNet (findDoc s.statsWeekly (toISOWeekKey data.ts)))
    (hM : consistentNet (findDoc s.statsMonthly (toMonthKey data.ts))) :
    (deleteTransaction (createTransaction s data newId now1) newId actor now2).map
        (fun s2 => (summaryFields (findDoc s2.statsDaily k),
                    summaryFields (findDoc s2.statsWeekly k),
                    summaryFields (findDoc s2.statsMonthly k))) =
      .ok (summaryFields (findDoc s.statsDaily k),
           summaryFields (findDoc s.statsWeekly k),
           summaryFields (findDoc s.statsMonthly k)) := by
  unfold createTransaction deleteTransaction updateSummaries
  simp only [findDoc_setDoc_same]
  cases actor <;>
    simp only [Except.map] <;>
    rw [applySummaryUpdate_inc_dec _ _ _ _ _ _ hD k,
      applySummaryUpdate_inc_dec _ _ _ _ _ _ hW k,
      applySummaryUpdate_inc_dec _ _ _ _ _ _ hM k]

/-- Witness for C1: on an empty store, create-then-delete of a concrete
700-cent income transaction leaves the summary fields at the key of its day
(and every other key) at zero. -/
theorem claim_C1_witness :
    consistentNet (findDoc ([] : List (String × SummaryDoc)) "2024-01-01") ∧
    (deleteTransaction
        (createTransaction ⟨[], [], [], [], [], [], []⟩
          ⟨1704103200000, .income, 700, "c9", "", none, none, "u", 0⟩ "id1" 5)
        "id1" none 6).map
        (fun s2 => (summaryFields (findDoc s2.statsDaily "2024-01-01"),
                    summaryFields (findDoc s2.statsWeekly "2024-01-01"),
                    summaryFields (findDoc s2.statsMonthly "2024-01-01"))) =
      .ok (summaryFields (findDoc ([] : List (String × SummaryDoc)) "2024-01-01"),
           summaryFields (findDoc ([] : List (String × SummaryDoc)) "2024-01-01"),
           summaryFields (findDoc ([] : List (String × SummaryDoc)) "2024-01-01")) :=
  ⟨(fun _ hd => nomatch hd),
   claim_C1 ⟨[], [], [], [], [], [], []⟩
     ⟨1704103200000, .income, 700, "c9", "", none, none, "u", 0⟩ "id1" none 5 6
     "2024-01-01" (fun _ hd => nomatch hd) (fun _ hd => nomatch hd)
     (fun _ hd => nomatch hd)⟩

/-- The field changes the delete path's `decrement` applies to an existing
summary document: the total and count matching the transaction type drop by
the amount and by one, and `netCents` is recomputed from the adjusted
totals. -/
def decrementedFields (f : Int × Int × Int × Int × Int) (tty : TransactionType)
    (amount : Int) : Int × Int × Int × Int × Int :=
  match tty with
  | .income => (f.1 - amount, f.2.1, f.1 - amount - f.2.1, f.2.2.2.1 - 1, f.2.2.2.2)
  | .expense => (f.1, f.2.1 - amount, f.1 - (f.2.1 - amount), f.2.2.2.1, f.2.2.2.2 - 1)

theorem applySummaryUpdate_dec_fields (coll : List (String × SummaryDoc))
    (key : String) (tty : TransactionType) (amount : Int) (now : Int)
    (d : SummaryDoc) (hdoc : findDoc coll key = some d) :
    summaryFields (findDoc (applySummaryUpdate coll key tty amount .decrement now) key) =
      decrementedFields (summaryFields (some d)) tty amount := by
  unfold applySummaryUpdate
  rw [hdoc]
  cases tty <;> simp [findDoc_setDoc_same, summaryFields, decrementedFields] <;> omega

/-- C5: the ledger delete fails with NotFound exactly when no record with
the id exists, and otherwise the whole atomic unit applies: the record is
gone and each of the three period summaries is decremented (type-matching
total down by the amount, matching count down by one, net recomputed).  In
the model the batch is an all-or-nothing state transformer, so an error
leaves every collection untouched — there is no partially-applied result
state. -/
theorem claim_C5 (s : LedgerState) (id : String) (actor : Option String) (now : Int) :
    (findDoc s.transactions id = none ↔
      deleteTransaction s id actor now = .error "Transaction not found") ∧
    (∀ rec dD dW dM, findDoc s.transactions id = some rec →
      findDoc s.statsDaily (toDateKey rec.ts) = some dD →
      findDoc s.statsWeekly (toISOWeekKey rec.ts) = some dW →
      findDoc s.statsMonthly (toMonthKey rec.ts) = some dM →
      (deleteTransaction s id actor now).map (fun s2 =>
          (findDoc s2.transactions id,
           summaryFields (findDoc s2.statsDaily (toDateKey rec.ts)),
           summaryFields (findDoc s2.statsWeekly (toISOWeekKey rec.ts)),
           summaryFields (findDoc s2.statsMonthly (toMonthKey rec.ts)))) =
        .ok (none,
             decrementedFields (summaryFields (some dD)) rec.tty rec.amountCents,
             decrementedFields (summaryFields (some dW)) rec.tty rec.amountCents,
             decrementedFields (summaryFields (some dM)) rec.tty rec.amountCents)) := by
  constructor
  · constructor
    · intro h
      unfold deleteTransaction
      rw [h]
    · intro h
      cases hdoc : findDoc s.transactions id with
      | none => rfl
      | some rec =>
        unfold deleteTransaction at h
        rw [hdoc] at h
        cases actor <;> simp at h
  · intro rec dD dW dM hrec hD hW hM
    unfold deleteTransaction updateSummaries
    rw [hrec]
    cases actor <;>
      simp only [Except.map] <;>
      rw [findDoc_deleteDoc_same,
        applySummaryUpdate_dec_fields _ _ _ _ _ _ hD,
        applySummaryUpdate_dec_fields _ _ _ _ _ _ hW,
        applySummaryUpdate_dec_fields _ _ _ _ _ _ hM]

/-- Witness for C5: deleting the one stored transaction removes it and
decrements the summaries of its day/week/month keys. -/
theorem claim_C5_witness :
    findDoc ([("id1", ⟨1704103200000, .income, 700, "c9", "", none, none, "u", 0⟩)] :
      List (String × TxRecord)) "id1" =
        some ⟨1704103200000, .income, 700, "c9", "", none, none, "u", 0⟩ ∧
    (deleteTransaction
        ⟨[("id1", ⟨1704103200000, .income, 700, "c9", "", none, none, "u", 0⟩)], [],
         [("2024-01-01", ⟨700, 0, 700, 1, 0, 5⟩)],
         [("2024-W01", ⟨700, 0, 700, 1, 0, 5⟩)],
         [("2024-01", ⟨700, 0, 700, 1, 0, 5⟩)], [], []⟩
        "id1" none 6).map (fun s2 =>
          (findDoc s2.transactions "id1",
           summaryFields (findDoc s2.statsDaily (toDateKey 1704103200000)),
           summaryFields (findDoc s2.statsWeekly (toISOWeekKey 1704103200000)),
           summaryFields (findDoc s2.statsMonthly (toMonthKey 1704103200000)))) =
      .ok (none,
           decrementedFields (summaryFields (some ⟨700, 0, 700, 1, 0, 5⟩)) .income 700,
           decrementedFields (summaryFields (some ⟨700, 0, 700, 1, 0, 5⟩)) .income 700,
           decrementedFields (summaryFields (some ⟨700, 0, 700, 1, 0, 5⟩)) .income 700) :=
  ⟨rfl,
   (claim_C5
      ⟨[("id1", ⟨1704103200000, .income, 700, "c9", "", none, none, "u", 0⟩)], [],
       [("2024-01-01", ⟨700, 0, 700, 1, 0, 5⟩)],
       [("2024-W01", ⟨700, 0, 700, 1, 0, 5⟩)],
       [("2024-01", ⟨700, 0, 700, 1, 0, 5⟩)], [], []⟩
      "id1" none 6).2
     ⟨1704103200000, .income, 700, "c9", "", none, none, "u", 0⟩
     ⟨700, 0, 700, 1, 0, 5⟩ ⟨700, 0, 700, 1, 0, 5⟩ ⟨700, 0, 700, 1, 0, 5⟩
     rfl (by decide) (by decide) (by decide)⟩

/-! ### Claims C7, C8 (ingestion webhook) -/

/-- In a store with no duplicate document ids, looking a member binding up
by its id gives its data. -/
theorem findDoc_of_mem_nodup {α : Type} :
    ∀ (coll : List (String × α)), (coll.map Prod.fst).Nodup →
      ∀ p ∈ coll, findDoc coll p.1 = some p.2
  | [], _, p, hp => by cases hp
  | q :: rest, h, p, hp => by
    rcases List.mem_cons.mp hp with rfl | hp'
    · simp [findDoc, List.find?]
    · have hne : q.1 ≠ p.1 := by
        intro he
        exact (List.nodup_cons.mp h).1 (he ▸ List.mem_map_of_mem Prod.fst hp')
      have hbeq : (q.1 == p.1) = false := by simpa using hne
      simp only [findDoc, List.find?, hbeq]
      exact findDoc_of_mem_nodup rest (List.nodup_cons.mp h).2 p hp'

/-- `getOrCreatePaymentTypeCategory` really yields the id of a category with
the requested name present in the returned store (creating it if absent),
assuming unique ids and a fresh server id. -/
theorem getOrCreatePaymentTypeCategory_spec (cats : List (String × Category))
    (name freshId : String) (hNodup : (cats.map Prod.fst).Nodup)
    (hFresh : findDoc cats freshId = none) :
    (findDoc (getOrCreatePaymentTypeCategory cats name freshId).2
        (getOrCreatePaymentTypeCategory cats name freshId).1).map
      (fun c => c.name) = some name := by
  unfold getOrCreatePaymentTypeCategory
  cases hfind : cats.find? (fun p => p.2.name == name) with
  | some p =>
    have hname : p.2.name = name := by
      simpa using List.find?_some hfind
    have hmem := List.mem_of_find?_eq_some hfind
    simp [findDoc_of_mem_nodup cats hNodup p hmem, hname]
  | none =>
    have hf2 : cats.find? (fun p => p.1 == freshId) = none := by
      simp only [findDoc] at hFresh
      cases hf : cats.find? (fun p => p.1 == freshId) with
      | none => rfl
      | some q => rw [hf] at hFresh; cases hFresh
    have hfound : findDoc (cats ++ [(freshId,
        { name := name, active := true, ctype := none })]) freshId =
          some { name := name, active := true, ctype := none } := by
      simp only [findDoc, List.find?_append, hf2]
      simp [List.find?]
    simp [hfound]

/-- The income total of a summary document rises by exactly the amount of
an income-typed `increment` (a missing document reading as zero income
before being seeded). -/
theorem applySummaryUpdate_inc_income (coll : List (String × SummaryDoc))
    (key : String) (amount now : Int) :
    (summaryFields (findDoc
        (applySummaryUpdate coll key .income amount .increment now) key)).1 =
      (summaryFields (findDoc coll key)).1 + amount := by
  unfold applySummaryUpdate
  cases hdoc : findDoc coll key <;>
    simp [findDoc_setDoc_same, summaryFields, hdoc]

/-- The example payload of the webhook claim:
`{date:"2025-03-01", type:"income", amount:12.50, categoryId:"cash",
createdBy:"u1"}`. -/
def webhookExamplePayload : WebhookPayload :=
  ⟨some "2025-03-01", some "income", some ((25 : Rat) / 2), some "cash",
   some "u1", none, none, none⟩

/-- C7: posting the example payload succeeds (HTTP 200 with the new id),
creates a transaction of 1250 cents (12.50 major units times 100, rounded)
whose category is the id resolved for the category named "Cash" (created if
absent — the resolved id names a "Cash" category in the resulting store),
and raises the income side of the daily summary `2025-03-01`, the
containing ISO-week summary `2025-W09` and the monthly summary `2025-03` by
exactly 1250 each.  Hypotheses: the category store has unique ids and the
server-generated category id is fresh. -/
theorem claim_C7 (s : LedgerState) (freshCatId freshTxId : String) (now : Int)
    (hNodup : (s.categories.map Prod.fst).Nodup)
    (hFresh : findDoc s.categories freshCatId = none) :
    (webhookPost s webhookExamplePayload freshCatId freshTxId now).1.status = 200 ∧
    (webhookPost s webhookExamplePayload freshCatId freshTxId now).1.success = true ∧
    (webhookPost s webhookExamplePayload freshCatId freshTxId now).1.transactionId =
      some freshTxId ∧
    (findDoc (webhookPost s webhookExamplePayload freshCatId freshTxId now).2.transactions
        freshTxId).map (fun rec => (rec.amountCents, rec.tty, rec.categoryId)) =
      some (1250, TransactionType.income,
        (getOrCreatePaymentTypeCategory s.categories "Cash" freshCatId).1) ∧
    (findDoc (webhookPost s webhookExamplePayload freshCatId freshTxId now).2.categories
        (getOrCreatePaymentTypeCategory s.categories "Cash" freshCatId).1).map
      (fun c => c.name) = some "Cash" ∧
    (summaryFields (findDoc
        (webhookPost s webhookExamplePayload freshCatId freshTxId now).2.statsDaily
        "2025-03-01")).1 =
      (summaryFields (findDoc s.statsDaily "2025-03-01")).1 + 1250 ∧
    (summaryFields (findDoc
        (webhookPost s webhookExamplePayload freshCatId freshTxId now).2.statsWeekly
        "2025-W09")).1 =
      (summaryFields (findDoc s.statsWeekly "2025-W09")).1 + 1250 ∧
    (summaryFields (findDoc
        (webhookPost s webhookExamplePayload freshCatId freshTxId now).2.statsMonthly
        "2025-03")).1 =
      (summaryFields (findDoc s.statsMonthly "2025-03")).1 + 1250 := by
  have hresolved := getOrCreatePaymentTypeCategory_spec s.categories "Cash" freshCatId
    hNodup hFresh
  have hcat : ∃ c, findDoc (getOrCreatePaymentTypeCategory s.categories "Cash" freshCatId).2
      (getOrCreatePaymentTypeCategory s.categories "Cash" freshCatId).1 = some c ∧
        c.name = "Cash" := by
    cases hf : findDoc (getOrCreatePaymentTypeCategory s.categories "Cash" freshCatId).2
        (getOrCreatePaymentTypeCategory s.categories "Cash" freshCatId).1 with
    | none => rw [hf] at hresolved; cases hresolved
    | some c =>
      rw [hf] at hresolved
      exact ⟨c, rfl, by simpa using hresolved⟩
  obtain ⟨c, hc, hcname⟩ := hcat
  have h1 : (isFalsyStr webhookExamplePayload.date ||
      isFalsyStr webhookExamplePayload.ptype ||
      webhookExamplePayload.amount.isNone ||
      isFalsyStr webhookExamplePayload.categoryId ||
      isFalsyStr webhookExamplePayload.createdBy) = false := by decide
  have h2 : (webhookExamplePayload.ptype != some "income" &&
      webhookExamplePayload.ptype != some "expense") = false := by decide
  have h3 : jsParseWebhookDate (webhookExamplePayload.date.getD "") =
      some 1740787200000 := by decide
  have h4 : jsRound (webhookExamplePayload.amount.getD 0 * 100) = 1250 := by
    with_unfolding_all decide
  have h5 : (webhookExamplePayload.categoryId == some "cash") = true := by decide
  have h6 : (webhookExamplePayload.ptype == some "income") = true := by decide
  have hdk : toDateKey 1740787200000 = "2025-03-01" := by decide
  have hwk : toISOWeekKey 1740787200000 = "2025-W09" := by decide
  have hmk : toMonthKey 1740787200000 = "2025-03" := by decide
  unfold webhookPost
  simp only [h1, h2, h3, h4, h5, h6, Bool.false_eq_true, if_false, if_true]
  rw [if_neg (by decide), hc]
  unfold createTransaction updateSummaries
  simp only [hdk, hwk, hmk, findDoc_setDoc_same, Option.map_some]
  refine ⟨?_, ?_, ?_, ?_, ?_, ?_, ?_, ?_⟩ <;>
    first
      | trivial
      | exact applySummaryUpdate_inc_income _ _ _ _

/-- Witness for C7 on the empty store: the webhook creates the Cash
category, the transaction and the three summary increments. -/
theorem claim_C7_witness :
    (([] : List (String × Category)).map Prod.fst).Nodup ∧
    (webhookPost ⟨[], [], [], [], [], [], []⟩ webhookExamplePayload
      "cat1" "tx1" 99).1.status = 200 ∧
    (summaryFields (findDoc (webhookPost ⟨[], [], [], [], [], [], []⟩
        webhookExamplePayload "cat1" "tx1" 99).2.statsDaily "2025-03-01")).1 =
      (summaryFields (findDoc ([] : List (String × SummaryDoc)) "2025-03-01")).1 + 1250 :=
  ⟨List.nodup_nil,
   (claim_C7 ⟨[], [], [], [], [], [], []⟩ "cat1" "tx1" 99 List.nodup_nil rfl).1,
   (claim_C7 ⟨[], [], [], [], [], [], []⟩ "cat1" "tx1" 99 List.nodup_nil rfl).2.2.2.2.2.1⟩

/-- C8: a webhook payload whose `type` is not `income`/`expense`, or whose
amount rounds to a non-positive number of cents, is rejected with status
400, creates no transaction, and appends the raw payload (with the refusal
reason) to the webhook error log. -/
theorem claim_C8 (s : LedgerState) (p : WebhookPayload)
    (freshCatId freshTxId : String) (now : Int)
    (h : (p.ptype ≠ some "income" ∧ p.ptype ≠ some "expense") ∨
      (∃ a, p.amount = some a ∧ jsRound (a * 100) ≤ 0)) :
    (webhookPost s p freshCatId freshTxId now).1.status = 400 ∧
    (webhookPost s p freshCatId freshTxId now).1.success = false ∧
    (webhookPost s p freshCatId freshTxId now).2.transactions = s.transactions ∧
    (webhookPost s p freshCatId freshTxId now).2.webhookErrors.map Prod.fst =
      s.webhookErrors.map Prod.fst ++ [p] := by
  unfold webhookPost
  split
  · simp [logWebhookError]
  · next hfields =>
    split
    · simp [logWebhookError]
    · next htype =>
      have hb : (p.ptype != some "income" && p.ptype != some "expense") = false := by
        revert htype
        cases (p.ptype != some "income" && p.ptype != some "expense") <;> simp
      have hptype : p.ptype = some "income" ∨ p.ptype = some "expense" := by
        rcases Bool.and_eq_false_iff.mp hb with h1 | h1
        · left
          simpa using h1
        · right
          simpa using h1
      split
      · simp [logWebhookError]
      · next d hdate =>
        rcases h with ⟨h1, h2⟩ | ⟨a, ha, hle⟩
        · rcases hptype with hp | hp
          · exact absurd hp h1
          · exact absurd hp h2
        · simp only [ha, Option.getD_some]
          rw [if_pos hle]
          simp [logWebhookError]

/-- Witness for C8 at the two example payloads: `type:"refund"` and
`amount:-5` are both rejected with 400 and logged. -/
theorem claim_C8_witness :
    ((webhookPost ⟨[], [], [], [], [], [], []⟩
        ⟨some "2025-03-01", some "refund", some (5 : Rat), some "cash", some "u1",
         none, none, none⟩ "c" "t" 0).1.status = 400 ∧
      (webhookPost ⟨[], [], [], [], [], [], []⟩
        ⟨some "2025-03-01", some "refund", some (5 : Rat), some "cash", some "u1",
         none, none, none⟩ "c" "t" 0).2.webhookErrors.map Prod.fst =
        [⟨some "2025-03-01", some "refund", some (5 : Rat), some "cash", some "u1",
          none, none, none⟩]) ∧
    ((webhookPost ⟨[], [], [], [], [], [], []⟩
        ⟨some "2025-03-01", some "income", some (-5 : Rat), some "cash", some "u1",
         none, none, none⟩ "c" "t" 0).1.status = 400 ∧
      (webhookPost ⟨[], [], [], [], [], [], []⟩
        ⟨some "2025-03-01", some "income", some (-5 : Rat), some "cash", some "u1",
         none, none, none⟩ "c" "t" 0).2.transactions = []) :=
  ⟨⟨(claim_C8 ⟨[], [], [], [], [], [], []⟩
      ⟨some "2025-03-01", some "refund", some (5 : Rat), some "cash", some "u1",
       none, none, none⟩ "c" "t" 0 (Or.inl (by decide))).1,
    (claim_C8 ⟨[], [], [], [], [], [], []⟩
      ⟨some "2025-03-01", some "refund", some (5 : Rat), some "cash", some "u1",
       none, none, none⟩ "c" "t" 0 (Or.inl (by decide))).2.2.2⟩,
   ⟨(claim_C8 ⟨[], [], [], [], [], [], []⟩
      ⟨some "2025-03-01", some "income", some (-5 : Rat), some "cash", some "u1",
       none, none, none⟩ "c" "t" 0
      (Or.inr ⟨-5, rfl, by with_unfolding_all decide⟩)).1,
    (claim_C8 ⟨[], [], [], [], [], [], []⟩
      ⟨some "2025-03-01", some "income", some (-5 : Rat), some "cash", some "u1",
       none, none, none⟩ "c" "t" 0
      (Or.inr ⟨-5, rfl, by with_unfolding_all decide⟩)).2.2.1⟩⟩

/-! ### Calendar arithmetic lemmas -/

theorem yearMarch_spec (z2 : Int) :
    marchBase (yearMarch z2) ≤ z2 ∧ z2 < marchBase (yearMarch z2 + 1) := by
  simp only [yearMarch, marchBase]
  split_ifs <;> omega

theorem marchBase_succ_le (y : Int) :
    365 ≤ marchBase (y + 1) - marchBase y ∧
      marchBase (y + 1) - marchBase y ≤ 366 := by
  simp only [marchBase]
  omega

theorem doy_bounds (z2 : Int) :
    0 ≤ z2 - marchBase (yearMarch z2) ∧ z2 - marchBase (yearMarch z2) ≤ 365 := by
  have hspec := yearMarch_spec z2
  have hstep := marchBase_succ_le (yearMarch z2)
  omega

theorem marchBase_mono {a b : Int} (h : a ≤ b) : marchBase a ≤ marchBase b := by
  have h2 : ∀ n : Nat, marchBase a ≤ marchBase (a + n) := by
    intro n
    induction n with
    | zero => simp
    | succ k ih =>
      have hstep := marchBase_succ_le (a + k)
      have he : a + ((k + 1 : Nat) : Int) = (a + k) + 1 := by push_cast; ring
      rw [he]
      omega
  have hb : b = a + ((b - a).toNat : Int) := by omega
  rw [hb]
  exact h2 _

theorem yearMarch_unique (z2 w : Int) (h1 : marchBase w ≤ z2)
    (h2 : z2 < marchBase (w + 1)) : yearMarch z2 = w := by
  have hspec := yearMarch_spec z2
  by_contra hne
  rcases lt_or_gt_of_ne hne with hlt | hgt
  · have hle : yearMarch z2 + 1 ≤ w := by omega
    have := marchBase_mono hle
    omega
  · have hle : w + 1 ≤ yearMarch z2 := by omega
    have := marchBase_mono hle
    omega

set_option maxHeartbeats 1000000 in
/-- Converting a day count to a civil date and back is the identity. -/
theorem daysFromCivil_civilFromDays (z : Int) :
    daysFromCivil (civilFromDays z) = z := by
  have hspec := yearMarch_spec (z + 719468)
  have hdoy := doy_bounds (z + 719468)
  simp only [civilFromDays, marchBase] at hspec hdoy ⊢
  generalize hyM : yearMarch (z + 719468) = yM at *
  obtain ⟨doy, hdoyv⟩ : ∃ w : Int,
      z + 719468 - (365 * yM + yM / 4 - yM / 100 + yM / 400) = w := ⟨_, rfl⟩
  simp only [hdoyv] at hdoy ⊢
  obtain ⟨mp, hmpv⟩ : ∃ w : Int, (5 * doy + 2) / 153 = w := ⟨_, rfl⟩
  simp only [hmpv]
  simp only [daysFromCivil]
  have e1 : yM / 4 = 100 * (yM / 400) + (yM - yM / 400 * 400) / 4 := by omega
  have e2 : yM / 100 = 4 * (yM / 400) + (yM - yM / 400 * 400) / 100 := by omega
  split_ifs <;> omega

set_option maxHeartbeats 1000000 in
/-- `civilFromDays` always produces an in-range month and day. -/
theorem civilFromDays_valid (z : Int) :
    1 ≤ (civilFromDays z).month ∧ (civilFromDays z).month ≤ 12 ∧
      1 ≤ (civilFromDays z).day ∧ (civilFromDays z).day ≤ 31 := by
  have hdoy := doy_bounds (z + 719468)
  simp only [civilFromDays, marchBase] at hdoy ⊢
  generalize hyM : yearMarch (z + 719468) = yM at *
  obtain ⟨doy, hdoyv⟩ : ∃ w : Int,
      z + 719468 - (365 * yM + yM / 4 - yM / 100 + yM / 400) = w := ⟨_, rfl⟩
  simp only [hdoyv] at hdoy ⊢
  split_ifs <;> omega

set_option maxHeartbeats 1000000 in
/-- Round trip for January dates. -/
theorem civilFromDays_jan (y d : Int) (h1 : 1 ≤ d) (h2 : d ≤ 31) :
    civilFromDays (daysFromCivil ⟨y, 1, d⟩) = ⟨y, 1, d⟩ := by
  have hfwd : daysFromCivil ⟨y, 1, d⟩ + 719468 = marchBase (y - 1) + 305 + d := by
    simp only [daysFromCivil, marchBase]
    have e1 : (y - 1) / 4 =
        100 * ((y - 1) / 400) + (y - 1 - (y - 1) / 400 * 400) / 4 := by omega
    have e2 : (y - 1) / 100 =
        4 * ((y - 1) / 400) + (y - 1 - (y - 1) / 400 * 400) / 100 := by omega
    split_ifs <;> omega
  have hy : yearMarch (marchBase (y - 1) + 305 + d) = y - 1 := by
    apply yearMarch_unique
    · omega
    · have := marchBase_succ_le (y - 1)
      omega
  simp only [civilFromDays, hfwd, hy, CivilDate.mk.injEq]
  split_ifs <;> omega

set_option maxHeartbeats 1000000 in
/-- Round trip for December dates. -/
theorem civilFromDays_dec (y d : Int) (h1 : 1 ≤ d) (h2 : d ≤ 31) :
    civilFromDays (daysFromCivil ⟨y, 12, d⟩) = ⟨y, 12, d⟩ := by
  have hfwd : daysFromCivil ⟨y, 12, d⟩ + 719468 = marchBase y + 274 + d := by
    simp only [daysFromCivil, marchBase]
    have e1 : y / 4 = 100 * (y / 400) + (y - y / 400 * 400) / 4 := by omega
    have e2 : y / 100 = 4 * (y / 400) + (y - y / 400 * 400) / 100 := by omega
    split_ifs <;> omega
  have hy : yearMarch (marchBase y + 274 + d) = y := by
    apply yearMarch_unique
    · omega
    · have := marchBase_succ_le y
      omega
  simp only [civilFromDays, hfwd, hy, CivilDate.mk.injEq]
  split_ifs <;> omega

/-- The day of month enters `daysFromCivil` linearly. -/
theorem daysFromCivil_day (c : CivilDate) :
    daysFromCivil c = daysFromCivil ⟨c.year, c.month, 1⟩ + c.day - 1 := by
  simp only [daysFromCivil]
  split_ifs <;> omega

/-! ### Claim C3 (ISO week keys) -/

/-- ISO-8601 weekday of a civil date: Monday = 1 … Sunday = 7 (the `dayNum`
of the source's `getISOWeek`). -/
def isoWeekday (c : CivilDate) : Int :=
  let w := weekdayOfDays (daysFromCivil c)
  if w = 0 then 7 else w

/-- The day of month enters `daysFromCivil` linearly (component form). -/
theorem daysFromCivil_day_comp (y m d : Int) :
    daysFromCivil ⟨y, m, d⟩ = daysFromCivil ⟨y, m, 1⟩ + d - 1 := by
  simp only [daysFromCivil]
  split_ifs <;> omega

/-- Outside the two-digit-year quirk range, `Date.UTC` agrees with the civil
day count. -/
theorem jsDateUTCDays_eq (y m d : Int) (hy : 100 ≤ y) (hm1 : 1 ≤ m)
    (hm2 : m ≤ 12) : jsDateUTCDays y (m - 1) d = daysFromCivil ⟨y, m, d⟩ := by
  simp only [jsDateUTCDays, jsYearAdjust]
  rw [if_neg (by omega)]
  have h1 : (m - 1) / 12 = 0 := by omega
  have h2 : (m - 1) % 12 = m - 1 := by omega
  rw [h1, h2]
  have h5 : y + 0 = y := by ring
  have h6 : m - 1 + 1 = m := by ring
  rw [h5, h6]
  have h4 := daysFromCivil_day_comp y m d
  omega

/-- January 1 of a year `y` is one day after December 31 of `y - 1`. -/
theorem daysFromCivil_jan1 (y : Int) :
    daysFromCivil ⟨y, 1, 1⟩ = daysFromCivil ⟨y - 1, 12, 31⟩ + 1 := by
  simp only [daysFromCivil]
  split_ifs <;> omega

set_option maxHeartbeats 1000000 in
/-- The ISO-week-number dichotomy for January 1, as computed by the source's
`getISOWeek`: if January 1 falls on Monday..Thursday it is in week 1 of its
year, otherwise it carries the week number of the last ISO week of the prior
year (the week of December 28).  The year bound keeps the computation clear
of the JS two-digit-year quirk. -/
theorem getISOWeek_jan1 (y : Int) (hy : 101 ≤ y) :
    (isoWeekday ⟨y, 1, 1⟩ ≤ 4 → getISOWeek ⟨y, 1, 1⟩ = 1) ∧
    (5 ≤ isoWeekday ⟨y, 1, 1⟩ →
      getISOWeek ⟨y, 1, 1⟩ = getISOWeek ⟨y - 1, 12, 28⟩) := by
  have hq1 : jsDateUTCDays y (1 - 1) 1 = daysFromCivil ⟨y, 1, 1⟩ :=
    jsDateUTCDays_eq y 1 1 (by omega) (by omega) (by omega)
  have hq1zero : jsDateUTCDays y 0 1 = daysFromCivil ⟨y, 1, 1⟩ := by
    have h := jsDateUTCDays_eq y 1 1 (by omega) (by omega) (by omega)
    rwa [show (1 : Int) - 1 = 0 by ring] at h
  have hqPrev : jsDateUTCDays (y - 1) 0 1 = daysFromCivil ⟨y - 1, 1, 1⟩ := by
    have h := jsDateUTCDays_eq (y - 1) 1 1 (by omega) (by omega) (by omega)
    rwa [show (1 : Int) - 1 = 0 by ring] at h
  have hq12 : jsDateUTCDays (y - 1) (12 - 1) 28 = daysFromCivil ⟨y - 1, 12, 28⟩ :=
    jsDateUTCDays_eq (y - 1) 12 28 (by omega) (by omega) (by omega)
  have hbridge := daysFromCivil_jan1 y
  set n := daysFromCivil ⟨y, 1, 1⟩ with hn
  have hjan : ∀ d : Int, daysFromCivil ⟨y, 1, d⟩ = n + d - 1 := by
    intro d
    have := daysFromCivil_day_comp y 1 d
    omega
  have hdec : ∀ d : Int, daysFromCivil ⟨y - 1, 12, d⟩ = n - 32 + d := by
    intro d
    have h1 := daysFromCivil_day_comp (y - 1) 12 d
    have h2 := daysFromCivil_day_comp (y - 1) 12 31
    omega
  have hmod : 0 ≤ (n + 4) % 7 ∧ (n + 4) % 7 < 7 := ⟨Int.emod_nonneg _ (by norm_num),
    Int.emod_lt_of_pos _ (by norm_num)⟩
  have hwd : isoWeekday ⟨y, 1, 1⟩ =
      (if (n + 4) % 7 = 0 then 7 else (n + 4) % 7) := by
    simp only [isoWeekday, weekdayOfDays, hn]
  constructor
  · intro hle
    rw [hwd] at hle
    have hne : ¬((n + 4) % 7 = 0) := by
      intro h0; rw [if_pos h0] at hle; omega
    rw [if_neg hne] at hle
    have hw1 : 1 ≤ (n + 4) % 7 := by omega
    have hciv : civilFromDays (n + 4 - (n + 4) % 7) = ⟨y, 1, 5 - (n + 4) % 7⟩ := by
      have hs : daysFromCivil ⟨y, 1, 5 - (n + 4) % 7⟩ = n + 4 - (n + 4) % 7 := by
        have := hjan (5 - (n + 4) % 7)
        omega
      rw [← hs]
      exact civilFromDays_jan y _ (by omega) (by omega)
    simp only [getISOWeek, weekdayOfDays]
    rw [hq1]
    simp only [if_neg hne, hciv]
    rw [hq1zero]
    omega
  · intro hge
    rw [hwd] at hge
    by_cases h0 : (n + 4) % 7 = 0
    · have hciv : civilFromDays (n + 4 - 7) = ⟨y - 1, 12, 29⟩ := by
        have hs : daysFromCivil ⟨y - 1, 12, 29⟩ = n + 4 - 7 := by
          have := hdec 29
          omega
        rw [← hs]
        exact civilFromDays_dec (y - 1) 29 (by omega) (by omega)
      have hn28 : daysFromCivil ⟨y - 1, 12, 28⟩ = n - 4 := by
        have := hdec 28
        omega
      have hw3 : (n - 4 + 4) % 7 = 3 := by omega
      have hciv3 : civilFromDays (n - 4 + 4 - 3) = ⟨y - 1, 12, 29⟩ := by
        have he : n - 4 + 4 - 3 = n + 4 - 7 := by omega
        rw [he]
        exact hciv
      simp only [getISOWeek, weekdayOfDays]
      rw [hq1, hq12, hn28]
      simp only [if_pos h0, hw3, if_neg (by norm_num : ¬(3 : Int) = 0), hciv, hciv3]
      rw [hqPrev]
      omega
    · have hw56 : 5 ≤ (n + 4) % 7 ∧ (n + 4) % 7 ≤ 6 := by
        rw [if_neg h0] at hge
        omega
      have hciv : civilFromDays (n + 4 - (n + 4) % 7) =
          ⟨y - 1, 12, 36 - (n + 4) % 7⟩ := by
        have hs : daysFromCivil ⟨y - 1, 12, 36 - (n + 4) % 7⟩ =
            n + 4 - (n + 4) % 7 := by
          have := hdec (36 - (n + 4) % 7)
          omega
      -- (proof continued below)
        rw [← hs]
        exact civilFromDays_dec (y - 1) _ (by omega) (by omega)
      have hn28 : daysFromCivil ⟨y - 1, 12, 28⟩ = n - 4 := by
        have := hdec 28
        omega
      have hw4 : (n - 4 + 4) % 7 = (n + 4) % 7 - 4 := by omega
      have hw4ne : ¬((n - 4 + 4) % 7 = 0) := by omega
      simp only [getISOWeek, weekdayOfDays]
      rw [hq1, hq12, hn28]
      simp only [if_neg h0]
      rw [if_neg hw4ne, hw4]
      have hciv4 : civilFromDays (n - 4 + 4 - ((n + 4) % 7 - 4)) =
          ⟨y - 1, 12, 36 - (n + 4) % 7⟩ := by
        have he : n - 4 + 4 - ((n + 4) % 7 - 4) = n + 4 - (n + 4) % 7 := by omega
        rw [he]
        exact hciv
      simp only [hciv, hciv4]
      rw [hqPrev]
      omega

/-! ### Date-key parsing round trip (C6) -/

lemma isDigitChar_ne_dash {c : Char} (h : isDigitChar c = true) : c ≠ '-' := by
  intro he
  subst he
  simp [isDigitChar] at h

lemma digitChar_isDigit {n : Nat} (h : n < 10) : isDigitChar (digitChar n) = true := by
  interval_cases n <;> decide

lemma digitChar_toNat {n : Nat} (h : n < 10) : (digitChar n).toNat = 48 + n := by
  interval_cases n <;> decide

/-- Digit-fold specification of `natDigitsAux`: with enough fuel the rendered
characters are all decimal digits, the list is nonempty, and folding the
decimal accumulator over it appends the value `n` to the accumulator. -/
lemma natDigitsAux_spec : ∀ fuel n, n < fuel →
    (∀ c ∈ natDigitsAux fuel n, isDigitChar c = true) ∧
    natDigitsAux fuel n ≠ [] ∧
    ∀ a : Nat, (natDigitsAux fuel n).foldl (fun a c => a * 10 + (c.toNat - 48)) a
      = a * 10 ^ (natDigitsAux fuel n).length + n
  | 0, _, h => absurd h (by omega)
  | fuel + 1, n, h => by
    by_cases h10 : n < 10
    · have heq : natDigitsAux (fuel + 1) n = [digitChar n] := by
        simp [natDigitsAux, h10]
      refine ⟨?_, ?_, ?_⟩
      · intro c hc
        rw [heq] at hc
        have : c = digitChar n := by simpa using hc
        subst this
        exact digitChar_isDigit h10
      · rw [heq]
        simp
      · intro a
        rw [heq]
        simp only [List.foldl_cons, List.foldl_nil, List.length_cons,
          List.length_nil, digitChar_toNat h10, zero_add, pow_one]
        omega
    · have hlt : n / 10 < fuel := by omega
      obtain ⟨hdig, hne, hfold⟩ := natDigitsAux_spec fuel (n / 10) hlt
      have heq : natDigitsAux (fuel + 1) n
          = natDigitsAux fuel (n / 10) ++ [digitChar (n % 10)] := by
        simp [natDigitsAux, h10]
      have hmod : n % 10 < 10 := by omega
      refine ⟨?_, ?_, ?_⟩
      · intro c hc
        rw [heq] at hc
        rcases List.mem_append.mp hc with h1 | h1
        · exact hdig c h1
        · have : c = digitChar (n % 10) := by simpa using h1
          subst this
          exact digitChar_isDigit hmod
      · rw [heq]
        exact List.append_ne_nil_of_right_ne_nil _ (by simp)
      · intro a
        rw [heq, List.foldl_append, hfold a, List.length_append]
        simp only [List.foldl_cons, List.foldl_nil, List.length_cons,
          List.length_nil, digitChar_toNat hmod, zero_add, pow_succ]
        obtain ⟨P, hP⟩ : ∃ P, (10 : Nat) ^ (natDigitsAux fuel (n / 10)).length = P :=
          ⟨_, rfl⟩
        rw [hP]
        have h48 : 48 + n % 10 - 48 = n % 10 := by omega
        rw [h48]
        have hkey : n / 10 * 10 + n % 10 = n := by omega
        calc (a * P + n / 10) * 10 + n % 10
            = a * (P * 10) + (n / 10 * 10 + n % 10) := by ring
          _ = a * (P * 10) + n := by rw [hkey]

/-- The decimal rendering of a `Nat` is a nonempty all-digit string that
evaluates back to the same number. -/
lemma natDigits_spec (n : Nat) :
    (∀ c ∈ natDigits n, isDigitChar c = true) ∧ natDigits n ≠ [] ∧
      digitsVal (natDigits n) = n := by
  obtain ⟨h1, h2, h3⟩ := natDigitsAux_spec (n + 1) n (by omega)
  exact ⟨h1, h2, by simpa [digitsVal] using h3 0⟩

lemma padZero_all_digit {k : Nat} {cs : List Char}
    (h : ∀ c ∈ cs, isDigitChar c = true) :
    ∀ c ∈ padZero k cs, isDigitChar c = true := by
  intro c hc
  simp only [padZero] at hc
  rcases List.mem_append.mp hc with h1 | h1
  · have : c = '0' := List.eq_of_mem_replicate h1
    subst this
    decide
  · exact h c h1

lemma padZero_ne_nil {k : Nat} {cs : List Char} (h : cs ≠ []) : padZero k cs ≠ [] := by
  simp only [padZero]
  exact List.append_ne_nil_of_right_ne_nil _ h

lemma foldl_replicate_zero (j : Nat) :
    List.foldl (fun a c => a * 10 + (c.toNat - 48)) 0 (List.replicate j '0') = 0 := by
  induction j with
  | zero => rfl
  | succ j ih =>
    have hacc : 0 * 10 + ('0'.toNat - 48) = 0 := by decide
    rw [List.replicate_succ, List.foldl_cons, hacc]
    exact ih

/-- Leading `'0'` padding does not change the decimal value. -/
lemma digitsVal_padZero (k : Nat) (cs : List Char) :
    digitsVal (padZero k cs) = digitsVal cs := by
  simp only [digitsVal, padZero, List.foldl_append, foldl_replicate_zero]

/-- `Number(...)` inverts the zero-padded decimal rendering of a `Nat`. -/
lemma jsNumberOfPart_padZero (k n : Nat) :
    jsNumberOfPart (padZero k (natDigits n)) = some (n : Int) := by
  obtain ⟨h1, h2, h3⟩ := natDigits_spec n
  have hall : (padZero k (natDigits n)).all isDigitChar = true :=
    List.all_eq_true.mpr (padZero_all_digit h1)
  simp only [jsNumberOfPart]
  rw [if_pos ⟨padZero_ne_nil h2, hall⟩, digitsVal_padZero, h3]

/-- `Number(...)` inverts the zero-padded rendering of a nonnegative `Int`. -/
lemma jsNumberOfPart_pad_intDigits (k : Nat) (v : Int) (hv : 0 ≤ v) :
    jsNumberOfPart (padZero k (intDigits v)) = some v := by
  have hi : intDigits v = natDigits v.natAbs := by
    simp only [intDigits, if_neg (by omega : ¬v < 0)]
  rw [hi, jsNumberOfPart_padZero, Int.natAbs_of_nonneg hv]

/-- The rendered components of a nonnegative number contain no separator. -/
lemma pad_intDigits_no_dash (k : Nat) (v : Int) (hv : 0 ≤ v) :
    ∀ x ∈ padZero k (intDigits v), ¬(x == '-') = true := by
  intro x hx
  have hi : intDigits v = natDigits v.natAbs := by
    simp only [intDigits, if_neg (by omega : ¬v < 0)]
  rw [hi] at hx
  have hd := padZero_all_digit (natDigits_spec v.natAbs).1 x hx
  simpa using isDigitChar_ne_dash hd

/-- Parsing the rendered `yyyy-MM-dd` key of a civil date with nonnegative
components recovers them: the result is the UTC midnight of that date (as JS
`new Date(y, m-1, d)` builds it under a UTC host clock) shifted by the Athens
offset at that midnight — not the Athens local midnight. -/
lemma parseDateKey_formatDateKey (c : CivilDate) (hy : 0 ≤ c.year)
    (hm : 0 ≤ c.month) (hd : 0 ≤ c.day) :
    parseDateKey (formatDateKey c) =
      some (jsMakeDateDays c.year (c.month - 1) c.day * msPerDay +
        athensOffsetMs (jsMakeDateDays c.year (c.month - 1) c.day * msPerDay)) := by
  have htl : (formatDateKey c).toList
      = padZero 4 (intDigits c.year) ++ '-' ::
        (padZero 2 (intDigits c.month) ++ '-' :: padZero 2 (intDigits c.day)) := rfl
  have hsplit : ((formatDateKey c).toList.splitOn '-')
      = [padZero 4 (intDigits c.year), padZero 2 (intDigits c.month),
         padZero 2 (intDigits c.day)] := by
    rw [htl]
    simp only [List.splitOn]
    rw [List.splitOnP_first _ _ (pad_intDigits_no_dash 4 c.year hy) '-' (by decide),
      List.splitOnP_first _ _ (pad_intDigits_no_dash 2 c.month hm) '-' (by decide),
      List.splitOnP_eq_single _ _ (pad_intDigits_no_dash 2 c.day hd)]
  have hmapv : ((formatDateKey c).toList.splitOn '-').map jsNumberOfPart
      = [some c.year, some c.month, some c.day] := by
    rw [hsplit]
    simp only [List.map_cons, List.map_nil]
    rw [jsNumberOfPart_pad_intDigits 4 c.year hy,
      jsNumberOfPart_pad_intDigits 2 c.month hm,
      jsNumberOfPart_pad_intDigits 2 c.day hd]
  unfold parseDateKey
  rw [hmapv]

/-- The Athens offset is always two or three hours. -/
lemma athensOffsetMs_cases (t : Int) :
    athensOffsetMs t = 7200000 ∨ athensOffsetMs t = 10800000 := by
  simp only [athensOffsetMs, msPerHour]
  split
  · right
    norm_num
  · left
    norm_num

/-- C3 counterexample: the instant 1672567200000 (2023-01-01T10:00Z, civil
date 2023-01-01 in Athens, a Sunday) gets the week key `"2023-W52"`, not the
`"2022-W52"` the claim asserts: `toISOWeekKey` prefixes the week number with
the civil calendar year (`zonedDate.getFullYear()`), not the ISO week-based
year. -/
theorem claim_C3_counterexample :
    toISOWeekKey 1672567200000 = "2023-W52" ∧
      toISOWeekKey 1672567200000 ≠ "2022-W52" := by
  constructor
  · decide
  · decide

/-- C3 (amended): the week key has the form `{year}-W{ww}` where `ww` is the
ISO-8601 week number of the Athens civil date, zero-padded to two digits,
but `{year}` is the civil calendar year, not the ISO week-based year.  The
ISO week-number dichotomy holds: away from the JS two-digit-year quirk
(calendar year at least 101), a January 1 whose ISO weekday (Mon=1..Sun=7)
is at most 4 is numbered week 1, and one whose weekday is at least 5 gets
the week number of the last ISO week of the prior year (the week of
December 28) — but keeps its own calendar year as prefix.  Hence 2024-01-01
maps to `"2024-W01"` while 2023-01-01 maps to `"2023-W52"` (not
`"2022-W52"`). -/
theorem claim_C3 :
    (∀ t : Int, 101 ≤ (athensCivil t).year → (athensCivil t).month = 1 →
      (athensCivil t).day = 1 →
      toISOWeekKey t = String.mk (intDigits (athensCivil t).year ++ '-' :: 'W' ::
        padZero 2 (intDigits (getISOWeek (athensCivil t)))) ∧
      (isoWeekday (athensCivil t) ≤ 4 → getISOWeek (athensCivil t) = 1) ∧
      (5 ≤ isoWeekday (athensCivil t) →
        getISOWeek (athensCivil t) = getISOWeek ⟨(athensCivil t).year - 1, 12, 28⟩)) ∧
    toISOWeekKey 1704103200000 = "2024-W01" ∧
    toISOWeekKey 1672567200000 = "2023-W52" := by
  refine ⟨?_, by decide, by decide⟩
  intro t hy hm hd
  refine ⟨rfl, ?_, ?_⟩
  · intro hle
    have hc : athensCivil t = ⟨(athensCivil t).year, 1, 1⟩ := by
      cases hcc : athensCivil t with
      | mk yy mm dd =>
        rw [hcc] at hm hd
        simp only at hm hd ⊢
        simp [hm, hd]
    rw [hc] at hle ⊢
    exact (getISOWeek_jan1 (athensCivil t).year hy).1 hle
  · intro hge
    have hc : athensCivil t = ⟨(athensCivil t).year, 1, 1⟩ := by
      cases hcc : athensCivil t with
      | mk yy mm dd =>
        rw [hcc] at hm hd
        simp only at hm hd ⊢
        simp [hm, hd]
    rw [hc] at hge ⊢
    exact (getISOWeek_jan1 (athensCivil t).year hy).2 hge

/-- Witness for C3: at the instant for 2024-01-01 (a Monday) the dichotomy
and the key shape are discharged concretely. -/
theorem claim_C3_witness :
    (101 ≤ (athensCivil 1704103200000).year ∧
      (athensCivil 1704103200000).month = 1 ∧
      (athensCivil 1704103200000).day = 1 ∧
      isoWeekday (athensCivil 1704103200000) ≤ 4) ∧
    getISOWeek (athensCivil 1704103200000) = 1 :=
  ⟨⟨by decide, by decide, by decide, by decide⟩,
   (claim_C3.1 1704103200000 (by decide) (by decide) (by decide)).2.1 (by decide)⟩

/-- C6 counterexample: for the instant 1704103200000 (2024-01-01T12:00 Athens
wall clock, key `"2024-01-01"`) `parseDateKey (toDateKey t)` returns
1704074400000 — the UTC midnight of 2024-01-01 shifted by the Athens offset,
whose Athens wall clock reads 04:00 — and not the Athens local-midnight
instant of that civil date, which is 1704060000000. -/
theorem claim_C6_counterexample :
    parseDateKey (toDateKey 1704103200000) = some 1704074400000 ∧
      athensWallMs 1704074400000 % msPerDay ≠ 0 ∧
      athensWallMs 1704060000000 % msPerDay = 0 ∧
      athensCivil 1704060000000 = athensCivil 1704103200000 := by
  refine ⟨?_, ?_, ?_, ?_⟩ <;> decide

/-- C6 (amended): away from the JS two-digit-year quirk (Athens civil year at
least 100), the `toDateKey` / `parseDateKey` pair round-trips to the same
Athens civil date — but the parsed instant is the UTC midnight of that date
plus the Athens offset, not the Athens local midnight. -/
theorem claim_C6 (t : Int) (hy : 100 ≤ (athensCivil t).year) :
    (parseDateKey (toDateKey t)).map athensCivil = some (athensCivil t) := by
  obtain ⟨hm1, hm2, hd1, hd2⟩ := civilFromDays_valid (athensWallMs t / msPerDay)
  have hc : athensCivil t = civilFromDays (athensWallMs t / msPerDay) := rfl
  rw [← hc] at hm1 hm2 hd1 hd2
  have hparse := parseDateKey_formatDateKey (athensCivil t) (by omega) (by omega)
    (by omega)
  have hD : jsMakeDateDays (athensCivil t).year ((athensCivil t).month - 1)
      (athensCivil t).day = daysFromCivil (athensCivil t) :=
    jsDateUTCDays_eq (athensCivil t).year (athensCivil t).month (athensCivil t).day
      (by omega) hm1 hm2
  have hDn : daysFromCivil (athensCivil t) = athensWallMs t / msPerDay := by
    rw [hc]
    exact daysFromCivil_civilFromDays _
  have hdiv : ∀ D : Int,
      athensWallMs (D * msPerDay + athensOffsetMs (D * msPerDay)) / msPerDay = D := by
    intro D
    have h1 := athensOffsetMs_cases (D * msPerDay)
    have h2 := athensOffsetMs_cases (D * msPerDay + athensOffsetMs (D * msPerDay))
    simp only [athensWallMs, msPerDay] at h1 h2 ⊢
    rcases h1 with h1 | h1 <;> rcases h2 with h2 | h2 <;> omega
  show (parseDateKey (formatDateKey (athensCivil t))).map athensCivil
      = some (athensCivil t)
  rw [hparse, hD, hDn, Option.map_some']
  have hfin : athensCivil ((athensWallMs t / msPerDay) * msPerDay +
      athensOffsetMs ((athensWallMs t / msPerDay) * msPerDay)) = athensCivil t := by
    show civilFromDays (athensWallMs ((athensWallMs t / msPerDay) * msPerDay +
        athensOffsetMs ((athensWallMs t / msPerDay) * msPerDay)) / msPerDay)
      = athensCivil t
    rw [hdiv (athensWallMs t / msPerDay)]
    exact hc.symm
  rw [hfin]

/-- Witness for C6 at the instant whose Athens civil date is 2024-01-01. -/
theorem claim_C6_witness :
    100 ≤ (athensCivil 1704103200000).year ∧
      (parseDateKey (toDateKey 1704103200000)).map athensCivil =
        some (athensCivil 1704103200000) :=
  ⟨by decide, claim_C6 1704103200000 (by decide)⟩

end IncomeExpenses
